import Mathlib

/-!
Shallow embedding of the trail and navigation core of the
maplibre-threejs-3d-map repository (web/js/trail.js, the point-mode trail
module, web/js/drone.js and the Navigation class of web/js/threejs-layer.js).

Coordinates are exact rationals where the JavaScript source only compares
and pushes numbers, and reals where the navigation stepper divides by a
square-root distance.  The source's significance test
`Math.sqrt(dx*dx + dy*dy) < 0.000009` is decided here by the equivalent
squared comparison `dx^2 + dy^2 < 0.000009^2`; the lemmas
`calculateDistance_lt_iff` and `calculateDistance_gt_iff` prove the
equivalence against the square-root form literally used by the code.
-/

/-- Planar squared distance between two `[lng, lat]` pairs:
`(lng2-lng1)^2 + (lat2-lat1)^2`, the radicand of `calculateDistance`. -/
def sqDist (p q : ℚ × ℚ) : ℚ :=
  (q.1 - p.1) ^ 2 + (q.2 - p.2) ^ 2

/-- The minimum-significance threshold `0.000009` (≈ 1 meter expressed in
degrees) shared by `trail.js` and the point-mode trail module. -/
def minDist : ℚ := 9 / 1000000

/-- The distance the source computes in `calculateDistance`:
`Math.sqrt((lng2-lng1)^2 + (lat2-lat1)^2)` (degree space). -/
noncomputable def calculateDistance (p q : ℚ × ℚ) : ℝ :=
  Real.sqrt (((q.1 - p.1 : ℚ) : ℝ) ^ 2 + ((q.2 - p.2 : ℚ) : ℝ) ^ 2)

theorem calculateDistance_eq_sqrt_sqDist (p q : ℚ × ℚ) :
    calculateDistance p q = Real.sqrt ((sqDist p q : ℚ) : ℝ) := by
  unfold calculateDistance sqDist
  push_cast
  ring_nf

/-- The source's skip test `calculateDistance(a, b) < 0.000009` is decided by
the squared comparison used by this embedding. -/
theorem calculateDistance_lt_iff (p q : ℚ × ℚ) {t : ℚ} (ht : 0 < t) :
    calculateDistance p q < (t : ℝ) ↔ sqDist p q < t ^ 2 := by
  rw [calculateDistance_eq_sqrt_sqDist,
    Real.sqrt_lt' (by exact_mod_cast ht)]
  exact_mod_cast Iff.rfl

/-- The point-mode acceptance test `distance > 0.000009` is decided by the
squared comparison used by this embedding. -/
theorem calculateDistance_gt_iff (p q : ℚ × ℚ) {t : ℚ} (ht : 0 ≤ t) :
    (t : ℝ) < calculateDistance p q ↔ t ^ 2 < sqDist p q := by
  rw [calculateDistance_eq_sqrt_sqDist,
    Real.lt_sqrt (by exact_mod_cast ht)]
  exact_mod_cast Iff.rfl

/-- The last `n` entries of a list, in order: what repeated
`push`-then-`shift()` eviction keeps. -/
def lastN (n : ℕ) (l : List α) : List α :=
  l.drop (l.length - n)

theorem lastN_length (n : ℕ) (l : List α) :
    (lastN n l).length = min n l.length := by
  simp [lastN]
  omega

theorem lastN_of_length_le {n : ℕ} {l : List α} (h : l.length ≤ n) :
    lastN n l = l := by
  simp [lastN, Nat.sub_eq_zero_of_le h]

theorem lastN_append_lastN (n : ℕ) (l r : List α) :
    lastN n (lastN n l ++ r) = lastN n (l ++ r) := by
  unfold lastN
  rw [← List.drop_append_of_le_length (show l.length - n ≤ l.length by omega)]
  rw [List.drop_drop]
  congr 1
  simp only [List.length_append, List.length_drop]
  omega

theorem mem_lastN {n : ℕ} {l : List α} {a : α} (h : a ∈ lastN n l) : a ∈ l :=
  List.drop_subset _ l h

/-- One `push(a)` followed by the source's `if (length > cap) shift()`
equals keeping the last `cap` entries, whenever the store was within
its cap beforehand. -/
theorem push_shift_eq_lastN {cap : ℕ} {l : List α} (h : l.length ≤ cap) (a : α) :
    (if cap < (l ++ [a]).length then (l ++ [a]).tail else l ++ [a]) =
      lastN cap (l ++ [a]) := by
  rcases Nat.lt_or_ge l.length cap with hlt | hge
  · rw [if_neg (by simp; omega), lastN_of_length_le (by simp; omega)]
  · have hcap : l.length = cap := le_antisymm h hge
    rw [if_pos (by simp; omega)]
    unfold lastN
    simp [hcap]

/-- A 3D position array `[longitude, latitude, altitude]` as handed to
`DroneTrail.addPathSegment` (degrees, degrees, meters). -/
structure Pos3 where
  lon : ℚ
  lat : ℚ
  alt : ℚ
  deriving DecidableEq

/-- An entry of `DroneTrail.pathSegments`: source and destination position,
derived color and width, and the velocity that produced it. -/
structure Segment where
  source : Pos3
  dest : Pos3
  color : ℕ × ℕ × ℕ
  width : ℚ
  velocity : ℚ
  deriving DecidableEq

namespace DroneTrail

/-- `calculateDistance` of `trail.js` applied to two position arrays (it reads
only the first two coordinates). -/
noncomputable def posDistance (pos1 pos2 : Pos3) : ℝ :=
  calculateDistance (pos1.lon, pos1.lat) (pos2.lon, pos2.lat)

/-- The state of one `DroneTrail` object together with its deck.gl layer:
`pathSegments` is the stored array, `layerData` the `data` most recently
passed to `layer.setProps`, and `signals` the log of all `setProps` data
payloads (the render-sync notifications), in order. -/
structure State where
  pathSegments : List Segment
  layerData : List Segment
  signals : List (List Segment)
  deriving DecidableEq

/-- A `DroneTrail` as constructed: empty segment store, empty layer data. -/
def initState : State := ⟨[], [], []⟩

/-- `getColorByVelocity(velocity)` of `trail.js`. -/
def getColorByVelocity (velocity : ℚ) : ℕ × ℕ × ℕ :=
  if velocity < 2 then (0, 255, 0)
  else if velocity < 8 then (255, 255, 0)
  else if velocity < 15 then (255, 165, 0)
  else (255, 0, 0)

/-- `getWidthByAltitude(altitude)` of `trail.js`:
`Math.min(baseWidth * Math.max(1, altitude / 100), 8)`. -/
def getWidthByAltitude (altitude : ℚ) : ℚ :=
  let baseWidth : ℚ := 3
  let altitudeFactor := max 1 (altitude / 100)
  min (baseWidth * altitudeFactor) 8

/-- `updateLayer()` of `trail.js`: passes a copy of `pathSegments` to the
layer only when the layer exists and `pathSegments.length > 0`. -/
def updateLayer (s : State) : State :=
  if 0 < s.pathSegments.length then
    { s with layerData := s.pathSegments, signals := s.signals ++ [s.pathSegments] }
  else s

/-- The segment object built by `addPathSegment` on acceptance. -/
def mkSegment (fromPosition toPosition : Pos3) (velocity : ℚ) : Segment :=
  { source := fromPosition
    dest := toPosition
    color := getColorByVelocity velocity
    width := getWidthByAltitude toPosition.alt
    velocity := velocity }

/-- `addPathSegment(fromPosition, toPosition, velocity)` of `trail.js`:
skip if `calculateDistance(...) < 0.000009` (decided by the squared
comparison, see `calculateDistance_lt_iff`); otherwise push the derived
segment, `shift()` if more than 300 segments, and `updateLayer()`. -/
def addPathSegment (s : State) (fromPosition toPosition : Pos3) (velocity : ℚ) : State :=
  if sqDist (fromPosition.lon, fromPosition.lat) (toPosition.lon, toPosition.lat) <
      minDist ^ 2 then s
  else
    let pushed := s.pathSegments ++ [mkSegment fromPosition toPosition velocity]
    let limited := if 300 < pushed.length then pushed.tail else pushed
    updateLayer { s with pathSegments := limited }

/-- `clear()` of `trail.js`: `pathSegments = []` then `updateLayer()`. -/
def clear (s : State) : State :=
  updateLayer { s with pathSegments := [] }

/-- `getPathSegments()` returns a copy of the stored array; in this
functional model the copy is the list itself. -/
def getPathSegments (s : State) : List Segment :=
  s.pathSegments

/-- The module-level `addTrailPoint(coordinates, altitude, velocity)` of
`trail.js` acting on the default drone's trail: continue from the last
segment's `dest`, or bootstrap with a `0.00001`-degree offset start. -/
def addTrailPoint (s : State) (lon lat : ℚ) (altitude : Option ℚ) (velocity : ℚ) : State :=
  let currentPos : Pos3 := ⟨lon, lat, altitude.getD 0⟩
  match (getPathSegments s).getLast? with
  | some lastSegment => addPathSegment s lastSegment.dest currentPos velocity
  | none =>
      let startPos : Pos3 :=
        ⟨currentPos.lon - 1 / 100000, currentPos.lat - 1 / 100000, currentPos.alt⟩
      addPathSegment s startPos currentPos velocity

end DroneTrail

/-- A stored entry of the point-mode trail module: a `[lng, lat]` or
`[lng, lat, altitude]` array (`alt = none` models the 2-element array). -/
structure TrailPoint where
  lon : ℚ
  lat : ℚ
  alt : Option ℚ
  deriving DecidableEq

namespace PointTrail

/-- The state of the point-mode trail module: the `trailPoints` array and the
log of geometry payloads handed to `map.getSource(...).setData` (each point
widened to 3D with default altitude 0). -/
structure State where
  trailPoints : List TrailPoint
  setDataCalls : List (List (ℚ × ℚ × ℚ))
  deriving DecidableEq

/-- The module's initial state: no points, no render updates yet. -/
def initState : State := ⟨[], []⟩

/-- `updateTrailOnMap()`: only when more than one point is stored, send the
3D-widened coordinate list to the map source. -/
def updateTrailOnMap (s : State) : State :=
  if 1 < s.trailPoints.length then
    { s with setDataCalls :=
        s.setDataCalls ++ [s.trailPoints.map (fun p => (p.lon, p.lat, p.alt.getD 0))] }
  else s

/-- `addTrailPoint(coordinates, altitude)` of the point-mode module: a first
point is always pushed; a later point is pushed only when its distance from
the last stored point exceeds `0.000009` (decided by the squared comparison,
see `calculateDistance_gt_iff`), with `shift()` eviction beyond 200 points
and a render update on acceptance. -/
def addTrailPoint (s : State) (lon lat : ℚ) (altitude : Option ℚ) : State :=
  match s.trailPoints.getLast? with
  | none => { s with trailPoints := [⟨lon, lat, altitude⟩] }
  | some lastPoint =>
      if minDist ^ 2 < sqDist (lastPoint.lon, lastPoint.lat) (lon, lat) then
        let pushed := s.trailPoints ++ [(⟨lon, lat, altitude⟩ : TrailPoint)]
        let limited := if 200 < pushed.length then pushed.tail else pushed
        updateTrailOnMap { s with trailPoints := limited }
      else s

/-- `clearTrail(map)` of the point-mode module: empty the array and send an
empty geometry payload to the map source. -/
def clearTrail (s : State) : State :=
  { trailPoints := [], setDataCalls := s.setDataCalls ++ [[]] }

end PointTrail

namespace PointTrail

/-- One external `addTrailPoint(coordinates, altitude)` call. -/
structure Call where
  lon : ℚ
  lat : ℚ
  alt : Option ℚ
  deriving DecidableEq

/-- Whether an `addTrailPoint` call is accepted in state `s`: a first point
always, a later point only beyond the distance threshold. -/
def accepts (s : State) (lon lat : ℚ) : Bool :=
  match s.trailPoints.getLast? with
  | none => true
  | some lastPoint =>
      decide (minDist ^ 2 < sqDist (lastPoint.lon, lastPoint.lat) (lon, lat))

/-- Run a sequence of `addTrailPoint` calls. -/
def run (s : State) : List Call → State
  | [] => s
  | c :: cs => run (addTrailPoint s c.lon c.lat c.alt) cs

/-- The subsequence of points actually pushed by a sequence of
`addTrailPoint` calls, in call order. -/
def acceptedPoints (s : State) : List Call → List TrailPoint
  | [] => []
  | c :: cs =>
      (if accepts s c.lon c.lat then [(⟨c.lon, c.lat, c.alt⟩ : TrailPoint)] else []) ++
        acceptedPoints (addTrailPoint s c.lon c.lat c.alt) cs

theorem updateTrailOnMap_trailPoints (s : State) :
    (updateTrailOnMap s).trailPoints = s.trailPoints := by
  unfold updateTrailOnMap
  split <;> rfl

theorem addTrailPoint_of_not_accepts {s : State} {lon lat : ℚ} (alt : Option ℚ)
    (h : accepts s lon lat = false) :
    addTrailPoint s lon lat alt = s := by
  unfold accepts at h
  unfold addTrailPoint
  rcases hl : s.trailPoints.getLast? with _ | lastPoint
  · simp [hl] at h
  · simp only [hl, decide_eq_false_iff_not] at h
    simp only [hl]
    rw [if_neg h]

theorem trailPoints_addTrailPoint_of_accepts {s : State} {lon lat : ℚ} (alt : Option ℚ)
    (h : accepts s lon lat = true) (hlen : s.trailPoints.length ≤ 200) :
    (addTrailPoint s lon lat alt).trailPoints =
      lastN 200 (s.trailPoints ++ [(⟨lon, lat, alt⟩ : TrailPoint)]) := by
  unfold accepts at h
  unfold addTrailPoint
  rcases hl : s.trailPoints.getLast? with _ | lastPoint
  · have hnil : s.trailPoints = [] := List.getLast?_eq_none_iff.mp hl
    simp [hl, hnil, lastN]
  · simp only [hl, decide_eq_true_eq] at h
    simp only [hl]
    rw [if_pos h]
    rw [updateTrailOnMap_trailPoints]
    exact push_shift_eq_lastN hlen _

theorem run_trailPoints_eq_lastN (cs : List Call) :
    ∀ s : State, s.trailPoints.length ≤ 200 →
      (run s cs).trailPoints = lastN 200 (s.trailPoints ++ acceptedPoints s cs) := by
  induction cs with
  | nil =>
      intro s hs
      simp [run, acceptedPoints, lastN_of_length_le hs]
  | cons c cs ih =>
      intro s hs
      rcases ha : accepts s c.lon c.lat with _ | _
      · rw [show run s (c :: cs) = run (addTrailPoint s c.lon c.lat c.alt) cs from rfl,
          addTrailPoint_of_not_accepts c.alt ha]
        simp only [acceptedPoints, ha]
        simp only [Bool.false_eq_true, if_false, List.nil_append]
        rw [addTrailPoint_of_not_accepts c.alt ha]
        exact ih s hs
      · have hstep := trailPoints_addTrailPoint_of_accepts c.alt ha hs
        have hlen2 : (addTrailPoint s c.lon c.lat c.alt).trailPoints.length ≤ 200 := by
          rw [hstep, lastN_length]
          omega
        rw [show run s (c :: cs) = run (addTrailPoint s c.lon c.lat c.alt) cs from rfl]
        rw [ih _ hlen2, hstep]
        simp only [acceptedPoints, ha]
        simp only [if_true]
        rw [lastN_append_lastN]
        rw [List.append_assoc]

end PointTrail

theorem getLast?_lastN {n : ℕ} (hn : 1 ≤ n) (l : List α) (a : α) :
    (lastN n (l ++ [a])).getLast? = some a := by
  unfold lastN
  rw [List.drop_append_of_le_length (by simp; omega)]
  exact List.getLast?_concat _

namespace DroneTrail

/-- One external `addTrailPoint(coordinates, altitude, velocity)` call of
`trail.js`. -/
structure Call where
  lon : ℚ
  lat : ℚ
  alt : Option ℚ
  vel : ℚ
  deriving DecidableEq

theorem segUpdateLayer_pathSegments (s : State) :
    (updateLayer s).pathSegments = s.pathSegments := by
  unfold updateLayer
  split <;> rfl

/-- The segment an `addTrailPoint` call would append in state `s`: continuing
from the last segment's destination, or from the bootstrap offset start. -/
def nextSegment (s : State) (lon lat : ℚ) (altitude : Option ℚ) (velocity : ℚ) : Segment :=
  match s.pathSegments.getLast? with
  | some lastSegment => mkSegment lastSegment.dest ⟨lon, lat, altitude.getD 0⟩ velocity
  | none =>
      mkSegment ⟨lon - 1 / 100000, lat - 1 / 100000, altitude.getD 0⟩
        ⟨lon, lat, altitude.getD 0⟩ velocity

/-- Whether an `addTrailPoint` call passes the `addPathSegment` distance
filter in state `s`. -/
def accepts (s : State) (lon lat : ℚ) : Bool :=
  match s.pathSegments.getLast? with
  | some lastSegment =>
      decide ¬(sqDist (lastSegment.dest.lon, lastSegment.dest.lat) (lon, lat) < minDist ^ 2)
  | none =>
      decide ¬(sqDist (lon - 1 / 100000, lat - 1 / 100000) (lon, lat) < minDist ^ 2)

/-- The bootstrap first segment (offset start) always passes the filter:
its squared length is `2e-10`, above the squared threshold `8.1e-11`. -/
theorem accepts_of_getLast?_eq_none {s : State} (h : s.pathSegments.getLast? = none)
    (lon lat : ℚ) : accepts s lon lat = true := by
  unfold accepts
  rw [h]
  rw [decide_eq_true_eq]
  unfold sqDist minDist
  rw [not_lt]
  ring_nf
  norm_num

theorem addPathSegment_of_lt {s : State} {fromPosition toPosition : Pos3} {velocity : ℚ}
    (h : sqDist (fromPosition.lon, fromPosition.lat) (toPosition.lon, toPosition.lat) <
      minDist ^ 2) :
    addPathSegment s fromPosition toPosition velocity = s := by
  unfold addPathSegment
  rw [if_pos h]

theorem pathSegments_addPathSegment {s : State} {fromPosition toPosition : Pos3}
    {velocity : ℚ}
    (h : ¬ sqDist (fromPosition.lon, fromPosition.lat) (toPosition.lon, toPosition.lat) <
      minDist ^ 2)
    (hlen : s.pathSegments.length ≤ 300) :
    (addPathSegment s fromPosition toPosition velocity).pathSegments =
      lastN 300 (s.pathSegments ++ [mkSegment fromPosition toPosition velocity]) := by
  unfold addPathSegment
  rw [if_neg h]
  rw [segUpdateLayer_pathSegments]
  exact push_shift_eq_lastN hlen _

/-- `addTrailPoint` is `addPathSegment` applied to the source and destination
of `nextSegment`. -/
theorem addTrailPoint_eq_addPathSegment (s : State) (lon lat : ℚ) (altitude : Option ℚ)
    (velocity : ℚ) :
    addTrailPoint s lon lat altitude velocity =
      addPathSegment s (nextSegment s lon lat altitude velocity).source
        (nextSegment s lon lat altitude velocity).dest velocity := by
  unfold addTrailPoint nextSegment getPathSegments
  rcases hl : s.pathSegments.getLast? with _ | lastSegment <;> simp [hl, mkSegment]

theorem accepts_iff (s : State) (lon lat : ℚ) (altitude : Option ℚ) (velocity : ℚ) :
    accepts s lon lat = true ↔
      ¬ sqDist ((nextSegment s lon lat altitude velocity).source.lon,
          (nextSegment s lon lat altitude velocity).source.lat)
        ((nextSegment s lon lat altitude velocity).dest.lon,
          (nextSegment s lon lat altitude velocity).dest.lat) < minDist ^ 2 := by
  unfold accepts nextSegment
  rcases hl : s.pathSegments.getLast? with _ | lastSegment <;> simp [hl, mkSegment]

/-- Run a sequence of `addTrailPoint` calls against one drone's trail. -/
def run (s : State) : List Call → State
  | [] => s
  | c :: cs => run (addTrailPoint s c.lon c.lat c.alt c.vel) cs

/-- The subsequence of segments actually pushed by a sequence of
`addTrailPoint` calls, in call order. -/
def acceptedSegs (s : State) : List Call → List Segment
  | [] => []
  | c :: cs =>
      (if accepts s c.lon c.lat then [nextSegment s c.lon c.lat c.alt c.vel] else []) ++
        acceptedSegs (addTrailPoint s c.lon c.lat c.alt c.vel) cs

theorem segAddTrailPoint_of_not_accepts {s : State} {lon lat : ℚ} (altitude : Option ℚ)
    (velocity : ℚ) (h : accepts s lon lat = false) :
    addTrailPoint s lon lat altitude velocity = s := by
  rw [addTrailPoint_eq_addPathSegment]
  refine addPathSegment_of_lt ?_
  by_contra hc
  have htrue : accepts s lon lat = true := (accepts_iff s lon lat altitude velocity).mpr hc
  rw [h] at htrue
  exact Bool.false_ne_true htrue

theorem pathSegments_addTrailPoint_of_accepts {s : State} {lon lat : ℚ}
    (altitude : Option ℚ) (velocity : ℚ) (h : accepts s lon lat = true)
    (hlen : s.pathSegments.length ≤ 300) :
    (addTrailPoint s lon lat altitude velocity).pathSegments =
      lastN 300 (s.pathSegments ++ [nextSegment s lon lat altitude velocity]) := by
  rw [addTrailPoint_eq_addPathSegment]
  rw [pathSegments_addPathSegment ((accepts_iff s lon lat altitude velocity).mp h) hlen]
  congr 1
  unfold nextSegment
  rcases hl : s.pathSegments.getLast? with _ | lastSegment <;> simp [hl, mkSegment]

theorem run_pathSegments_eq_lastN (cs : List Call) :
    ∀ s : State, s.pathSegments.length ≤ 300 →
      (run s cs).pathSegments = lastN 300 (s.pathSegments ++ acceptedSegs s cs) := by
  induction cs with
  | nil =>
      intro s hs
      simp [run, acceptedSegs, lastN_of_length_le hs]
  | cons c cs ih =>
      intro s hs
      rcases ha : accepts s c.lon c.lat with _ | _
      · rw [show run s (c :: cs) = run (addTrailPoint s c.lon c.lat c.alt c.vel) cs from rfl,
          segAddTrailPoint_of_not_accepts c.alt c.vel ha]
        simp only [acceptedSegs, ha]
        simp only [Bool.false_eq_true, if_false, List.nil_append]
        rw [segAddTrailPoint_of_not_accepts c.alt c.vel ha]
        exact ih s hs
      · have hstep := pathSegments_addTrailPoint_of_accepts c.alt c.vel ha hs
        have hlen2 : (addTrailPoint s c.lon c.lat c.alt c.vel).pathSegments.length ≤ 300 := by
          rw [hstep, lastN_length]
          omega
        rw [show run s (c :: cs) = run (addTrailPoint s c.lon c.lat c.alt c.vel) cs from rfl]
        rw [ih _ hlen2, hstep]
        simp only [acceptedSegs, ha]
        simp only [if_true]
        rw [lastN_append_lastN]
        rw [List.append_assoc]

end DroneTrail

namespace PointTrail

/-- Two stored points farther apart than the significance threshold
(squared-comparison form). -/
def farApart (a b : TrailPoint) : Prop :=
  minDist ^ 2 < sqDist (a.lon, a.lat) (b.lon, b.lat)

theorem getLast?_addTrailPoint_of_accepts {s : State} {lon lat : ℚ} (alt : Option ℚ)
    (h : accepts s lon lat = true) (hlen : s.trailPoints.length ≤ 200) :
    (addTrailPoint s lon lat alt).trailPoints.getLast? =
      some (⟨lon, lat, alt⟩ : TrailPoint) := by
  rw [trailPoints_addTrailPoint_of_accepts alt h hlen]
  exact getLast?_lastN (by omega) _ _

/-- Every call of a threshold-spaced call chain whose head is far from the
stored tail is accepted, so the accepted trace is the whole call list. -/
theorem acceptedPoints_length_of_chain (cs : List Call) :
    ∀ s : State, s.trailPoints.length ≤ 200 →
      (∀ lp c0, s.trailPoints.getLast? = some lp → cs.head? = some c0 →
        minDist ^ 2 < sqDist (lp.lon, lp.lat) (c0.lon, c0.lat)) →
      cs.Chain' (fun a b => minDist ^ 2 < sqDist (a.lon, a.lat) (b.lon, b.lat)) →
      (acceptedPoints s cs).length = cs.length := by
  induction cs with
  | nil => intro s _ _ _; rfl
  | cons c cs ih =>
      intro s hlen hhead hchain
      have ha : accepts s c.lon c.lat = true := by
        unfold accepts
        rcases hl : s.trailPoints.getLast? with _ | lp
        · rfl
        · rw [decide_eq_true_eq]
          exact hhead lp c hl rfl
      rw [List.chain'_cons'] at hchain
      have hstep := getLast?_addTrailPoint_of_accepts c.alt ha hlen
      have hlen2 : (addTrailPoint s c.lon c.lat c.alt).trailPoints.length ≤ 200 := by
        rw [trailPoints_addTrailPoint_of_accepts c.alt ha hlen, lastN_length]
        omega
      have hrec : (acceptedPoints (addTrailPoint s c.lon c.lat c.alt) cs).length =
          cs.length := by
        refine ih _ hlen2 ?_ hchain.2
        intro lp c0 hlp hc0
        rw [hstep] at hlp
        cases hlp
        exact hchain.1 c0 (by simp [hc0])
      simp only [acceptedPoints, ha, if_true, List.length_append, List.length_cons,
        List.length_nil, hrec]
      omega

/-- `addTrailPoint` preserves the consecutive-distance invariant of the
stored points, including through `shift()` eviction. -/
theorem chain'_farApart_addTrailPoint (s : State) (lon lat : ℚ) (alt : Option ℚ)
    (h : s.trailPoints.Chain' farApart) :
    (addTrailPoint s lon lat alt).trailPoints.Chain' farApart := by
  unfold addTrailPoint
  rcases hl : s.trailPoints.getLast? with _ | lastPoint
  · have hnil : s.trailPoints = [] := List.getLast?_eq_none_iff.mp hl
    simp [hnil]
  · simp only [hl]
    split
    · rw [updateTrailOnMap_trailPoints]
      have happ : (s.trailPoints ++ [(⟨lon, lat, alt⟩ : TrailPoint)]).Chain' farApart := by
        rw [List.chain'_append]
        refine ⟨h, List.chain'_singleton _, ?_⟩
        intro x hx y hy
        rw [hl] at hx
        cases hx
        cases hy
        assumption
      split
      · exact happ.tail
      · exact happ
    · exact h

/-- The consecutive-distance invariant over a whole run of calls. -/
theorem chain'_farApart_run (cs : List Call) :
    ∀ s : State, s.trailPoints.Chain' farApart →
      (run s cs).trailPoints.Chain' farApart := by
  induction cs with
  | nil => intro s h; exact h
  | cons c cs ih =>
      intro s h
      exact ih _ (chain'_farApart_addTrailPoint s c.lon c.lat c.alt h)

end PointTrail

namespace DroneTrail

theorem nextSegment_dest (s : State) (lon lat : ℚ) (altitude : Option ℚ) (velocity : ℚ) :
    (nextSegment s lon lat altitude velocity).dest = ⟨lon, lat, altitude.getD 0⟩ := by
  unfold nextSegment
  rcases s.pathSegments.getLast? with _ | lastSegment <;> rfl

theorem segGetLast?_addTrailPoint_of_accepts {s : State} {lon lat : ℚ}
    (altitude : Option ℚ) (velocity : ℚ) (h : accepts s lon lat = true)
    (hlen : s.pathSegments.length ≤ 300) :
    (addTrailPoint s lon lat altitude velocity).pathSegments.getLast? =
      some (nextSegment s lon lat altitude velocity) := by
  rw [pathSegments_addTrailPoint_of_accepts altitude velocity h hlen]
  exact getLast?_lastN (by omega) _ _

/-- Every call of a threshold-spaced call chain whose head is far enough from
the last stored destination is accepted, so the accepted trace is the whole
call list. -/
theorem acceptedSegs_length_of_chain (cs : List Call) :
    ∀ s : State, s.pathSegments.length ≤ 300 →
      (∀ lastSegment c0, s.pathSegments.getLast? = some lastSegment →
        cs.head? = some c0 →
        ¬ sqDist (lastSegment.dest.lon, lastSegment.dest.lat) (c0.lon, c0.lat) <
          minDist ^ 2) →
      cs.Chain'
        (fun a b => ¬ sqDist (a.lon, a.lat) (b.lon, b.lat) < minDist ^ 2) →
      (acceptedSegs s cs).length = cs.length := by
  induction cs with
  | nil => intro s _ _ _; rfl
  | cons c cs ih =>
      intro s hlen hhead hchain
      have ha : accepts s c.lon c.lat = true := by
        rcases hl : s.pathSegments.getLast? with _ | lastSegment
        · exact accepts_of_getLast?_eq_none hl c.lon c.lat
        · unfold accepts
          rw [hl, decide_eq_true_eq]
          exact hhead lastSegment c hl rfl
      rw [List.chain'_cons'] at hchain
      have hstep := segGetLast?_addTrailPoint_of_accepts c.alt c.vel ha hlen
      have hlen2 : (addTrailPoint s c.lon c.lat c.alt c.vel).pathSegments.length ≤ 300 := by
        rw [pathSegments_addTrailPoint_of_accepts c.alt c.vel ha hlen, lastN_length]
        omega
      have hrec : (acceptedSegs (addTrailPoint s c.lon c.lat c.alt c.vel) cs).length =
          cs.length := by
        refine ih _ hlen2 ?_ hchain.2
        intro lastSegment c0 hlp hc0
        rw [hstep] at hlp
        cases hlp
        rw [nextSegment_dest]
        exact hchain.1 c0 (by simp [hc0])
      simp only [acceptedSegs, ha, if_true, List.length_append, List.length_cons,
        List.length_nil, hrec]
      omega

/-- Adjacent stored segments are linked: the later one starts where the
earlier one ends. -/
def linked (a b : Segment) : Prop :=
  b.source = a.dest

/-- On an empty trail, `addTrailPoint` always stores exactly the bootstrap
segment, whose source is the destination shifted by `-0.00001` degrees in
both coordinates. -/
theorem pathSegments_addTrailPoint_of_empty {s : State} (h : s.pathSegments = [])
    (lon lat : ℚ) (altitude : Option ℚ) (velocity : ℚ) :
    (addTrailPoint s lon lat altitude velocity).pathSegments =
      [mkSegment ⟨lon - 1 / 100000, lat - 1 / 100000, altitude.getD 0⟩
        ⟨lon, lat, altitude.getD 0⟩ velocity] := by
  have hl : s.pathSegments.getLast? = none := by rw [h]; rfl
  rw [pathSegments_addTrailPoint_of_accepts altitude velocity
    (accepts_of_getLast?_eq_none hl lon lat) (by rw [h]; simp)]
  unfold nextSegment
  rw [hl, h]
  simp [lastN]

/-- `addTrailPoint` preserves segment-chain connectivity, including through
the distance filter's rejections and `shift()` eviction. -/
theorem chain'_linked_addTrailPoint (s : State) (lon lat : ℚ) (altitude : Option ℚ)
    (velocity : ℚ) (hlen : s.pathSegments.length ≤ 300)
    (h : s.pathSegments.Chain' linked) :
    (addTrailPoint s lon lat altitude velocity).pathSegments.Chain' linked := by
  rcases ha : accepts s lon lat with _ | _
  · rw [segAddTrailPoint_of_not_accepts altitude velocity ha]
    exact h
  · rw [pathSegments_addTrailPoint_of_accepts altitude velocity ha hlen]
    have happ : (s.pathSegments ++ [nextSegment s lon lat altitude velocity]).Chain'
        linked := by
      rw [List.chain'_append]
      refine ⟨h, List.chain'_singleton _, ?_⟩
      intro x hx y hy
      cases hy
      unfold nextSegment
      rcases hl : s.pathSegments.getLast? with _ | lastSegment
      · rw [hl] at hx
        cases hx
      · rw [hl] at hx
        cases hx
        rfl
    unfold lastN
    exact happ.drop _

/-- Segment-chain connectivity and the length bound over a whole run of
calls. -/
theorem chain'_linked_run (cs : List Call) :
    ∀ s : State, s.pathSegments.length ≤ 300 → s.pathSegments.Chain' linked →
      (run s cs).pathSegments.Chain' linked := by
  induction cs with
  | nil => intro s _ h; exact h
  | cons c cs ih =>
      intro s hlen h
      have hlen2 : (addTrailPoint s c.lon c.lat c.alt c.vel).pathSegments.length ≤ 300 := by
        rcases ha : accepts s c.lon c.lat with _ | _
        · rw [segAddTrailPoint_of_not_accepts c.alt c.vel ha]
          exact hlen
        · rw [pathSegments_addTrailPoint_of_accepts c.alt c.vel ha hlen, lastN_length]
          omega
      exact ih _ hlen2 (chain'_linked_addTrailPoint s c.lon c.lat c.alt c.vel hlen h)

end DroneTrail

namespace PointTrail

/-- Calls one whole degree apart: every one passes the significance filter. -/
def spacedCalls (n : ℕ) : List Call :=
  (List.range n).map fun (i : ℕ) => ⟨(i : ℚ), 0, none⟩

theorem length_acceptedPoints_spacedCalls (n : ℕ) :
    (acceptedPoints initState (spacedCalls n)).length = n := by
  have hchain : (spacedCalls n).Chain'
      (fun a b => minDist ^ 2 < sqDist (a.lon, a.lat) (b.lon, b.lat)) := by
    unfold spacedCalls
    rw [List.chain'_map]
    cases n with
    | zero => simp
    | succ m =>
        rw [List.chain'_range_succ]
        intro i _
        show minDist ^ 2 < sqDist ((i : ℚ), 0) (((i + 1 : ℕ) : ℚ), 0)
        unfold sqDist minDist
        push_cast
        ring_nf
        norm_num
  have hres := acceptedPoints_length_of_chain (spacedCalls n) initState
    (by simp [initState]) (by intro lp c0 hlp _; simp [initState] at hlp) hchain
  rw [hres]
  simp [spacedCalls]

end PointTrail

namespace DroneTrail

/-- Calls one whole degree apart: every one passes the segment filter. -/
def spacedSegCalls (n : ℕ) : List Call :=
  (List.range n).map fun (i : ℕ) => ⟨(i : ℚ), 0, none, 0⟩

theorem length_acceptedSegs_spacedSegCalls (n : ℕ) :
    (acceptedSegs initState (spacedSegCalls n)).length = n := by
  have hchain : (spacedSegCalls n).Chain'
      (fun a b => ¬ sqDist (a.lon, a.lat) (b.lon, b.lat) < minDist ^ 2) := by
    unfold spacedSegCalls
    rw [List.chain'_map]
    cases n with
    | zero => simp
    | succ m =>
        rw [List.chain'_range_succ]
        intro i _
        show ¬ sqDist ((i : ℚ), 0) (((i + 1 : ℕ) : ℚ), 0) < minDist ^ 2
        unfold sqDist minDist
        push_cast
        ring_nf
        norm_num
  have hres := acceptedSegs_length_of_chain (spacedSegCalls n) initState
    (by simp [initState]) (by intro lp c0 hlp _; simp [initState] at hlp) hchain
  rw [hres]
  simp [spacedSegCalls]

end DroneTrail

/-- The interval-scheduling state shared by `Navigation.moveDroneToward` and
`Drone.stopMovement`: the ids of currently scheduled intervals, the next id
the host would hand out (browsers hand out positive ids), and the drone's
`move_interval` field (possibly a stale id after arrival, since the arrival
branch clears the interval without nulling the field). -/
structure SchedState where
  active : List ℕ
  nextId : ℕ
  move_interval : Option ℕ
  deriving DecidableEq

namespace Sched

/-- Before any maneuver: nothing scheduled, `move_interval = null`. -/
def initState : SchedState := ⟨[], 1, none⟩

/-- `clearInterval(handle)`: deschedules the handle; a null or stale handle
is ignored by the host. -/
def clearInterval (sch : SchedState) (h : Option ℕ) : SchedState :=
  match h with
  | none => sch
  | some i => { sch with active := sch.active.erase i }

/-- The loop bookkeeping of `Navigation.moveDroneToward`: if
`this.drone.move_interval` is set, `clearInterval` it; then
`this.drone.move_interval = setInterval(...)` schedules a fresh id. -/
def moveDroneToward (sch : SchedState) : SchedState :=
  let cleared := if sch.move_interval.isSome then clearInterval sch sch.move_interval else sch
  { active := cleared.active ++ [cleared.nextId]
    nextId := cleared.nextId + 1
    move_interval := some cleared.nextId }

/-- A tick of interval `i` that reaches the arrival branch:
`clearInterval(this.drone.move_interval)` without nulling the field. Only a
currently scheduled interval can tick. -/
def arrivalTick (sch : SchedState) (i : ℕ) : SchedState :=
  if i ∈ sch.active then clearInterval sch sch.move_interval else sch

/-- `Drone.stopMovement()`: if `move_interval` is set, clear it and null the
field. -/
def stopMovement (sch : SchedState) : SchedState :=
  if sch.move_interval.isSome then
    { clearInterval sch sch.move_interval with move_interval := none }
  else sch

/-- The externally observable operations that touch the loop bookkeeping: a
`moveDroneToward` call, an arriving tick, a non-arriving tick (which leaves
the bookkeeping untouched), and a `stopMovement` call. -/
inductive Op where
  | move : Op
  | tickArrive (i : ℕ) : Op
  | tickAdvance (i : ℕ) : Op
  | stop : Op
  deriving DecidableEq

def step (sch : SchedState) : Op → SchedState
  | Op.move => moveDroneToward sch
  | Op.tickArrive i => arrivalTick sch i
  | Op.tickAdvance _ => sch
  | Op.stop => stopMovement sch

def runOps (sch : SchedState) : List Op → SchedState
  | [] => sch
  | o :: os => runOps (step sch o) os

/-- The single-active-loop invariant: at most one interval is scheduled, and
a scheduled interval is always the one `move_interval` refers to. -/
def Inv (sch : SchedState) : Prop :=
  sch.active.length ≤ 1 ∧ ∀ i ∈ sch.active, sch.move_interval = some i

theorem inv_initState : Inv initState := by
  constructor
  · simp [initState]
  · intro i hi
    simp [initState] at hi

theorem active_clearCurrent {sch : SchedState} (h : Inv sch) :
    (clearInterval sch sch.move_interval).active = [] := by
  rcases hm : sch.move_interval with _ | j
  · rcases ha : sch.active with _ | ⟨x, rest⟩
    · simp [clearInterval, hm, ha]
    · have := h.2 x (by rw [ha]; exact List.mem_cons_self x rest)
      rw [hm] at this
      cases this
  · unfold clearInterval
    rcases ha : sch.active with _ | ⟨x, rest⟩
    · simp
    · have hx := h.2 x (by rw [ha]; exact List.mem_cons_self x rest)
      rw [hm] at hx
      cases hx
      have hr : rest = [] := by
        have := h.1
        rw [ha] at this
        simp at this
        exact this
      simp [ha, hr, List.erase_cons]

theorem active_moveDroneToward {sch : SchedState} (h : Inv sch) :
    (moveDroneToward sch).active = [sch.nextId] := by
  unfold moveDroneToward
  rcases hm : sch.move_interval with _ | j
  · have ha : sch.active = [] := by
      rcases hx : sch.active with _ | ⟨x, rest⟩
      · rfl
      · have := h.2 x (by rw [hx]; exact List.mem_cons_self x rest)
        rw [hm] at this
        cases this
    simp [hm, ha]
  · have hc := active_clearCurrent h
    rw [hm] at hc
    simp [hm, hc]
    rfl

theorem inv_step {sch : SchedState} (h : Inv sch) (o : Op) : Inv (step sch o) := by
  cases o with
  | move =>
      show Inv (moveDroneToward sch)
      have ha := active_moveDroneToward h
      constructor
      · rw [ha]
        simp
      · intro i hi
        rw [ha] at hi
        simp at hi
        cases hi
        unfold moveDroneToward
        rcases hm : sch.move_interval with _ | j <;> simp [hm, clearInterval]
  | tickArrive i =>
      show Inv (arrivalTick sch i)
      unfold arrivalTick
      split
      · have hc := active_clearCurrent h
        constructor
        · rw [hc]
          simp
        · intro k hk
          rw [hc] at hk
          cases hk
      · exact h
  | tickAdvance i => exact h
  | stop =>
      show Inv (stopMovement sch)
      unfold stopMovement
      split
      · have hc := active_clearCurrent h
        constructor
        · rw [show ({ clearInterval sch sch.move_interval with move_interval := none
            } : SchedState).active = (clearInterval sch sch.move_interval).active from rfl,
            hc]
          simp
        · intro k hk
          rw [show ({ clearInterval sch sch.move_interval with move_interval := none
            } : SchedState).active = (clearInterval sch sch.move_interval).active from rfl,
            hc] at hk
          cases hk
      · exact h

theorem inv_runOps (os : List Op) : ∀ sch : SchedState, Inv sch → Inv (runOps sch os) := by
  induction os with
  | nil => intro sch h; exact h
  | cons o os ih =>
      intro sch h
      exact ih _ (inv_step h o)

end Sched

/-- The altitude-glide step inlined in each tick of
`Navigation.moveDroneToward` (threejs-layer.js): while
`Math.abs(altitude - targetAlt) > 0.5`, move by
`vertical_speed / move_frequency` toward the target; otherwise set the
altitude to `targetAlt`.  Rational-number version, for the concrete
altitude scenarios. -/
def adjustAltitude (altitude targetAlt vertical_speed move_frequency : ℚ) : ℚ :=
  if 1 / 2 < |altitude - targetAlt| then
    if altitude < targetAlt then altitude + vertical_speed / move_frequency
    else altitude - vertical_speed / move_frequency
  else targetAlt

/-- The altitude sequence of the spec's scenario: start 100, target 105,
vertical speed 2 m/s, tick frequency 1 Hz (the `Drone` defaults). -/
def altSeq (n : ℕ) : ℚ :=
  (fun a => adjustAltitude a 105 2 1)^[n] 100

theorem altSeq_zero : altSeq 0 = 100 := rfl

theorem altSeq_succ (n : ℕ) : altSeq (n + 1) = adjustAltitude (altSeq n) 105 2 1 :=
  Function.iterate_succ_apply' _ _ _

theorem adjustAltitude_100 : adjustAltitude 100 105 2 1 = 102 := by
  unfold adjustAltitude
  rw [abs_of_nonpos (by norm_num)]
  norm_num

theorem adjustAltitude_102 : adjustAltitude 102 105 2 1 = 104 := by
  unfold adjustAltitude
  rw [abs_of_nonpos (by norm_num)]
  norm_num

theorem adjustAltitude_104 : adjustAltitude 104 105 2 1 = 106 := by
  unfold adjustAltitude
  rw [abs_of_nonpos (by norm_num)]
  norm_num

theorem adjustAltitude_106 : adjustAltitude 106 105 2 1 = 104 := by
  unfold adjustAltitude
  rw [abs_of_nonneg (by norm_num)]
  norm_num

/-- From the second tick on, the glide alternates between 104 and 106
forever: the snap guard `0.5` is narrower than the `2`-meter step, so the
gap never drops below 1 and the snap never fires. -/
theorem altSeq_oscillates : ∀ n : ℕ, 2 ≤ n → altSeq n = if Even n then 104 else 106 := by
  intro n
  induction n with
  | zero => intro h; exact absurd h (by omega)
  | succ m ih =>
      intro h
      rcases Nat.lt_or_ge m 2 with hm | hm
      · interval_cases m
        · exact absurd h (by omega)
        · show altSeq 2 = if Even 2 then 104 else 106
          rw [if_pos (by decide)]
          rw [show (2 : ℕ) = 1 + 1 from rfl, altSeq_succ, altSeq_succ, altSeq_zero,
            adjustAltitude_100, adjustAltitude_102]
      · have hrec := ih hm
        rw [altSeq_succ]
        by_cases he : Even m
        · rw [if_pos he] at hrec
          rw [hrec, adjustAltitude_104, if_neg (by simp [Nat.even_add_one, he])]
        · rw [if_neg he] at hrec
          rw [hrec, adjustAltitude_106, if_pos (by simp [Nat.even_add_one, he])]

/-- The live mutable state of `Drone` (drone.js): position plus the vertical
speed and tick frequency the stepper reads. -/
structure DroneState where
  longitude : ℝ
  latitude : ℝ
  altitude : ℝ
  vertical_speed : ℝ
  move_frequency : ℝ

/-- A 3D position with real coordinates, for the states the stepper
produces. -/
structure Pos3R where
  lon : ℝ
  lat : ℝ
  alt : ℝ

/-- A `pathSegments` entry with real coordinates. -/
structure SegmentR where
  source : Pos3R
  dest : Pos3R
  color : ℕ × ℕ × ℕ
  width : ℝ
  velocity : ℝ

/-- The deck.gl trail state with real coordinates (same shape as
`DroneTrail.State`). -/
structure TrailStateR where
  pathSegments : List SegmentR
  layerData : List SegmentR
  signals : List (List SegmentR)

namespace TrailR

/-- `getColorByVelocity` over the reals. -/
noncomputable def getColorByVelocity (velocity : ℝ) : ℕ × ℕ × ℕ :=
  if velocity < 2 then (0, 255, 0)
  else if velocity < 8 then (255, 255, 0)
  else if velocity < 15 then (255, 165, 0)
  else (255, 0, 0)

/-- `getWidthByAltitude` over the reals. -/
noncomputable def getWidthByAltitude (altitude : ℝ) : ℝ :=
  min (3 * max 1 (altitude / 100)) 8

/-- The segment `addPathSegment` builds on acceptance, over the reals. -/
noncomputable def mkSegment (fromPosition toPosition : Pos3R) (velocity : ℝ) : SegmentR :=
  { source := fromPosition
    dest := toPosition
    color := getColorByVelocity velocity
    width := getWidthByAltitude toPosition.alt
    velocity := velocity }

/-- `updateLayer()` over the reals. -/
def updateLayer (s : TrailStateR) : TrailStateR :=
  if 0 < s.pathSegments.length then
    { s with layerData := s.pathSegments, signals := s.signals ++ [s.pathSegments] }
  else s

/-- `addPathSegment` over the reals, with the literal
`Math.sqrt(dx^2 + dy^2) < 0.000009` filter (push, `shift()` beyond 300,
then `updateLayer()`). -/
noncomputable def addPathSegment (s : TrailStateR) (fromPosition toPosition : Pos3R)
    (velocity : ℝ) : TrailStateR :=
  if Real.sqrt ((toPosition.lon - fromPosition.lon) ^ 2 +
      (toPosition.lat - fromPosition.lat) ^ 2) < 9 / 1000000 then s
  else
    updateLayer { s with pathSegments :=
      if 300 < (s.pathSegments ++ [mkSegment fromPosition toPosition velocity]).length then
        (s.pathSegments ++ [mkSegment fromPosition toPosition velocity]).tail
      else s.pathSegments ++ [mkSegment fromPosition toPosition velocity] }

/-- The module-level `addTrailPoint` of `trail.js` over the reals (velocity
defaults to 0 when the stepper calls it). -/
noncomputable def addTrailPoint (s : TrailStateR) (lon lat : ℝ) (altitude : Option ℝ)
    (velocity : ℝ) : TrailStateR :=
  match s.pathSegments.getLast? with
  | some lastSegment =>
      addPathSegment s lastSegment.dest ⟨lon, lat, altitude.getD 0⟩ velocity
  | none =>
      addPathSegment s ⟨lon - 1 / 100000, lat - 1 / 100000, altitude.getD 0⟩
        ⟨lon, lat, altitude.getD 0⟩ velocity

theorem updateLayerR_pathSegments (s : TrailStateR) :
    (updateLayer s).pathSegments = s.pathSegments := by
  unfold updateLayer
  split <;> rfl

theorem mem_pathSegments_addPathSegment {s : TrailStateR} {fromPosition toPosition : Pos3R}
    {velocity : ℝ} {seg : SegmentR}
    (h : seg ∈ (addPathSegment s fromPosition toPosition velocity).pathSegments) :
    seg ∈ s.pathSegments ∨ seg = mkSegment fromPosition toPosition velocity := by
  unfold addPathSegment at h
  split at h
  · exact Or.inl h
  · rw [updateLayerR_pathSegments] at h
    have hmem : seg ∈ s.pathSegments ++ [mkSegment fromPosition toPosition velocity] := by
      split at h
      · exact List.tail_subset _ h
      · exact h
    rcases List.mem_append.mp hmem with h1 | h2
    · exact Or.inl h1
    · exact Or.inr (List.mem_singleton.mp h2)

theorem mem_pathSegments_addTrailPoint {s : TrailStateR} {lon lat : ℝ}
    {altitude : Option ℝ} {velocity : ℝ} {seg : SegmentR}
    (h : seg ∈ (addTrailPoint s lon lat altitude velocity).pathSegments) :
    seg ∈ s.pathSegments ∨ (seg.dest.lon = lon ∧ seg.dest.lat = lat) := by
  unfold addTrailPoint at h
  rcases hl : s.pathSegments.getLast? with _ | lastSegment <;>
    simp only [hl] at h
  · rcases mem_pathSegments_addPathSegment h with h1 | h2
    · exact Or.inl h1
    · refine Or.inr ?_
      rw [h2]
      exact ⟨rfl, rfl⟩
  · rcases mem_pathSegments_addPathSegment h with h1 | h2
    · exact Or.inl h1
    · refine Or.inr ?_
      rw [h2]
      exact ⟨rfl, rfl⟩

theorem mem_signals_addPathSegment {s : TrailStateR} {fromPosition toPosition : Pos3R}
    {velocity : ℝ} {payload : List SegmentR}
    (h : payload ∈ (addPathSegment s fromPosition toPosition velocity).signals) :
    payload ∈ s.signals ∨
      payload = (addPathSegment s fromPosition toPosition velocity).pathSegments := by
  unfold addPathSegment at h ⊢
  by_cases hc : Real.sqrt ((toPosition.lon - fromPosition.lon) ^ 2 +
      (toPosition.lat - fromPosition.lat) ^ 2) < 9 / 1000000
  · rw [if_pos hc] at h
    rw [if_pos hc]
    exact Or.inl h
  · rw [if_neg hc] at h
    rw [if_neg hc, updateLayerR_pathSegments]
    by_cases hlen : 300 <
        (s.pathSegments ++ [mkSegment fromPosition toPosition velocity]).length
    · rw [if_pos hlen] at h ⊢
      unfold updateLayer at h
      split at h
      · rcases List.mem_append.mp h with h1 | h2
        · exact Or.inl h1
        · exact Or.inr (List.mem_singleton.mp h2)
      · exact Or.inl h
    · rw [if_neg hlen] at h ⊢
      unfold updateLayer at h
      split at h
      · rcases List.mem_append.mp h with h1 | h2
        · exact Or.inl h1
        · exact Or.inr (List.mem_singleton.mp h2)
      · exact Or.inl h

theorem mem_signals_addTrailPoint {s : TrailStateR} {lon lat : ℝ}
    {altitude : Option ℝ} {velocity : ℝ} {payload : List SegmentR}
    (h : payload ∈ (addTrailPoint s lon lat altitude velocity).signals) :
    payload ∈ s.signals ∨
      payload = (addTrailPoint s lon lat altitude velocity).pathSegments := by
  unfold addTrailPoint at h ⊢
  rcases hl : s.pathSegments.getLast? with _ | lastSegment <;>
    simp only [hl] at h ⊢
  · exact mem_signals_addPathSegment h
  · exact mem_signals_addPathSegment h

end TrailR

namespace Navigation

/-- The distance computed at the top of each tick of
`Navigation.moveDroneToward`: points are `[lat, lon]` pairs and
`Math.sqrt((latB-latA)^2 + (lonB-lonA)^2) * 111000` converts the planar
degree distance to meters. -/
noncomputable def totalDistance (pointA pointB : ℝ × ℝ) : ℝ :=
  Real.sqrt ((pointB.1 - pointA.1) ^ 2 + (pointB.2 - pointA.2) ^ 2) * 111000

/-- The altitude-glide step of the tick, over the reals (same rule as
`adjustAltitude`). -/
noncomputable def adjustAltitudeR (altitude targetAlt vertical_speed move_frequency : ℝ) : ℝ :=
  if 1 / 2 < |altitude - targetAlt| then
    if altitude < targetAlt then altitude + vertical_speed / move_frequency
    else altitude - vertical_speed / move_frequency
  else targetAlt

/-- The whole observable state of one maneuver: the drone, the default
drone's trail, whether the tick interval is still scheduled, and how many
times `onComplete` has been invoked. -/
structure SimState where
  drone : DroneState
  trail : TrailStateR
  active : Bool
  completions : ℕ

/-- One tick of the `setInterval` callback of `Navigation.moveDroneToward`
(threejs-layer.js): compute the meter distance to the target; at distance
exactly 0, clear the interval and invoke `onComplete`; otherwise move by
`stepMeters / totalDist` of the remaining delta, record the pre-step
position into the trail, commit the new position, glide the altitude, and
if the pre-step distance was within one step, clear the interval, remove
the target marker and invoke `onComplete`.  A tick of a cleared interval
does not run. -/
noncomputable def moveTick (targetLon targetLat targetAlt stepMeters : ℝ)
    (s : SimState) : SimState :=
  if s.active then
    if totalDistance (s.drone.latitude, s.drone.longitude) (targetLat, targetLon) = 0 then
      { s with active := false, completions := s.completions + 1 }
    else
      if totalDistance (s.drone.latitude, s.drone.longitude) (targetLat, targetLon) ≤
          stepMeters then
        { drone :=
            { longitude := s.drone.longitude +
                stepMeters /
                  totalDistance (s.drone.latitude, s.drone.longitude) (targetLat, targetLon) *
                  (targetLon - s.drone.longitude)
              latitude := s.drone.latitude +
                stepMeters /
                  totalDistance (s.drone.latitude, s.drone.longitude) (targetLat, targetLon) *
                  (targetLat - s.drone.latitude)
              altitude := adjustAltitudeR s.drone.altitude targetAlt
                s.drone.vertical_speed s.drone.move_frequency
              vertical_speed := s.drone.vertical_speed
              move_frequency := s.drone.move_frequency }
          trail := TrailR.addTrailPoint s.trail s.drone.longitude s.drone.latitude
            (some s.drone.altitude) 0
          active := false
          completions := s.completions + 1 }
      else
        { drone :=
            { longitude := s.drone.longitude +
                stepMeters /
                  totalDistance (s.drone.latitude, s.drone.longitude) (targetLat, targetLon) *
                  (targetLon - s.drone.longitude)
              latitude := s.drone.latitude +
                stepMeters /
                  totalDistance (s.drone.latitude, s.drone.longitude) (targetLat, targetLon) *
                  (targetLat - s.drone.latitude)
              altitude := adjustAltitudeR s.drone.altitude targetAlt
                s.drone.vertical_speed s.drone.move_frequency
              vertical_speed := s.drone.vertical_speed
              move_frequency := s.drone.move_frequency }
          trail := TrailR.addTrailPoint s.trail s.drone.longitude s.drone.latitude
            (some s.drone.altitude) 0
          active := true
          completions := s.completions }
  else s

/-- `m` scheduled ticks of the maneuver's interval. -/
noncomputable def moveRun (targetLon targetLat targetAlt stepMeters : ℝ) (m : ℕ)
    (s : SimState) : SimState :=
  (moveTick targetLon targetLat targetAlt stepMeters)^[m] s

/-- The state right after `moveDroneToward(target, targetAlt, stepMeters)`
has canceled any previous loop and scheduled its own: drone at the start
position, empty default trail, loop active, `onComplete` not yet invoked. -/
def initSim (lonA latA alt0 vs fr : ℝ) : SimState :=
  { drone := ⟨lonA, latA, alt0, vs, fr⟩
    trail := ⟨[], [], []⟩
    active := true
    completions := 0 }

theorem moveTick_of_inactive {targetLon targetLat targetAlt stepMeters : ℝ} {s : SimState}
    (h : s.active = false) : moveTick targetLon targetLat targetAlt stepMeters s = s := by
  unfold moveTick
  rw [h]
  rfl

theorem moveRun_succ (targetLon targetLat targetAlt stepMeters : ℝ) (m : ℕ) (s : SimState) :
    moveRun targetLon targetLat targetAlt stepMeters (m + 1) s =
      moveTick targetLon targetLat targetAlt stepMeters
        (moveRun targetLon targetLat targetAlt stepMeters m s) :=
  Function.iterate_succ_apply' _ _ _

theorem moveRun_of_inactive {targetLon targetLat targetAlt stepMeters : ℝ} {s : SimState}
    (h : s.active = false) : ∀ k : ℕ, moveRun targetLon targetLat targetAlt stepMeters k s = s := by
  intro k
  induction k with
  | zero => rfl
  | succ m ih =>
      rw [moveRun_succ, ih, moveTick_of_inactive h]

/-- Moving a `t`-fraction of the way from the current point to the target
rescales the tick distance by `|1 - t|`: the motion is collinear. -/
theorem totalDistance_lerp (latA lonA latB lonB t : ℝ) :
    totalDistance (latA + t * (latB - latA), lonA + t * (lonB - lonA)) (latB, lonB) =
      |1 - t| * totalDistance (latA, lonA) (latB, lonB) := by
  unfold totalDistance
  simp only
  have h1 : latB - (latA + t * (latB - latA)) = (1 - t) * (latB - latA) := by ring
  have h2 : lonB - (lonA + t * (lonB - lonA)) = (1 - t) * (lonB - lonA) := by ring
  rw [h1, h2, mul_pow, mul_pow, ← mul_add, Real.sqrt_mul (sq_nonneg _),
    Real.sqrt_sq_eq_abs]
  ring

end Navigation

namespace Navigation

theorem totalDistance_def (a b c e : ℝ) :
    totalDistance (a, b) (c, e) = Real.sqrt ((c - a) ^ 2 + (e - b) ^ 2) * 111000 :=
  rfl

/-- Full characterization of a maneuver from `(lonA, latA)` toward
`(lonB, latB)` with positive planar distance `d` meters and step
`stepMeters`: through tick `n = ⌈d / stepMeters⌉` the drone sits at the
`m·stepMeters/d` linear interpolation point (each tick advances exactly
`stepMeters` meters along the segment, the final tick included, with no
snap to the target), the loop stays scheduled strictly before tick `n` and
is cleared at tick `n`, `onComplete` has fired exactly once at tick `n`,
and the trail only ever holds destinations that are strictly earlier tick
positions. -/
theorem moveRun_invariant
    (lonA latA lonB latB targetAlt alt0 vs fr stepMeters d : ℝ) (n : ℕ)
    (hq : (latB - latA) ^ 2 + (lonB - lonA) ^ 2 ≠ 0)
    (hs : 0 < stepMeters)
    (hd : d = totalDistance (latA, lonA) (latB, lonB))
    (hn : n = ⌈d / stepMeters⌉₊) :
    ∀ m : ℕ, m ≤ n →
      (moveRun lonB latB targetAlt stepMeters m (initSim lonA latA alt0 vs fr)).drone.longitude
          = lonA + (m * stepMeters / d) * (lonB - lonA) ∧
      (moveRun lonB latB targetAlt stepMeters m (initSim lonA latA alt0 vs fr)).drone.latitude
          = latA + (m * stepMeters / d) * (latB - latA) ∧
      (moveRun lonB latB targetAlt stepMeters m (initSim lonA latA alt0 vs fr)).active
          = decide (m < n) ∧
      (moveRun lonB latB targetAlt stepMeters m (initSim lonA latA alt0 vs fr)).completions
          = (if m < n then 0 else 1) ∧
      (∀ seg ∈ (moveRun lonB latB targetAlt stepMeters m
          (initSim lonA latA alt0 vs fr)).trail.pathSegments,
        ∃ i : ℕ, i < m ∧
          seg.dest.lon = lonA + (i * stepMeters / d) * (lonB - lonA) ∧
          seg.dest.lat = latA + (i * stepMeters / d) * (latB - latA)) ∧
      (∀ payload ∈ (moveRun lonB latB targetAlt stepMeters m
          (initSim lonA latA alt0 vs fr)).trail.signals,
        ∀ seg ∈ payload,
          ∃ i : ℕ, i < m ∧
            seg.dest.lon = lonA + (i * stepMeters / d) * (lonB - lonA) ∧
            seg.dest.lat = latA + (i * stepMeters / d) * (latB - latA)) := by
  have hq' : 0 < (latB - latA) ^ 2 + (lonB - lonA) ^ 2 :=
    lt_of_le_of_ne (by positivity) (Ne.symm hq)
  have hsq : 0 < Real.sqrt ((latB - latA) ^ 2 + (lonB - lonA) ^ 2) := Real.sqrt_pos.mpr hq'
  have hd0 : 0 < d := by
    rw [hd, totalDistance_def]
    positivity
  have hd' : d ≠ 0 := ne_of_gt hd0
  have hn0 : 0 < n := by
    rw [hn, Nat.ceil_pos]
    positivity
  intro m
  induction m with
  | zero =>
      intro _
      refine ⟨?_, ?_, ?_, ?_, ?_, ?_⟩
      · show lonA = lonA + (((0 : ℕ) : ℝ) * stepMeters / d) * (lonB - lonA)
        push_cast
        ring
      · show latA = latA + (((0 : ℕ) : ℝ) * stepMeters / d) * (latB - latA)
        push_cast
        ring
      · show (true : Bool) = decide (0 < n)
        exact (decide_eq_true hn0).symm
      · show (0 : ℕ) = if 0 < n then 0 else 1
        rw [if_pos hn0]
      · intro seg hseg
        exact absurd hseg (List.not_mem_nil seg)
      · intro payload hp
        exact absurd hp (List.not_mem_nil payload)
  | succ m ih =>
      intro hm1
      have hmn : m < n := by omega
      obtain ⟨ihlon, ihlat, ihact, ihcomp, ihseg, ihsig⟩ := ih (Nat.le_of_lt hmn)
      rw [moveRun_succ]
      set S := moveRun lonB latB targetAlt stepMeters m (initSim lonA latA alt0 vs fr)
        with hS
      have htlt : (m : ℝ) * stepMeters < d := by
        have hmn2 : m < ⌈d / stepMeters⌉₊ := by rw [← hn]; exact hmn
        have hx : (m : ℝ) < d / stepMeters := Nat.lt_ceil.mp hmn2
        exact (lt_div_iff₀ hs).mp hx
      have hdm : 0 < d - m * stepMeters := by linarith
      have hdm' : d - (m : ℝ) * stepMeters ≠ 0 := ne_of_gt hdm
      have hdist : totalDistance (S.drone.latitude, S.drone.longitude) (latB, lonB)
          = d - m * stepMeters := by
        rw [ihlat, ihlon, totalDistance_lerp, ← hd]
        have h1t : (0 : ℝ) ≤ 1 - (m : ℝ) * stepMeters / d := by
          have hx : (m : ℝ) * stepMeters / d < 1 := (div_lt_one hd0).mpr htlt
          linarith
        rw [abs_of_nonneg h1t]
        field_simp
      have hact : S.active = true := by
        rw [ihact]
        exact decide_eq_true hmn
      rcases Nat.lt_or_ge (m + 1) n with hlt | hge
      · have hstep1 : ((m : ℝ) + 1) * stepMeters < d := by
          have hmn3 : m + 1 < ⌈d / stepMeters⌉₊ := by rw [← hn]; exact hlt
          have hx : ((m + 1 : ℕ) : ℝ) < d / stepMeters := Nat.lt_ceil.mp hmn3
          push_cast at hx
          exact (lt_div_iff₀ hs).mp hx
        have htick : moveTick lonB latB targetAlt stepMeters S =
            { drone :=
                { longitude := S.drone.longitude +
                    stepMeters / (d - m * stepMeters) * (lonB - S.drone.longitude)
                  latitude := S.drone.latitude +
                    stepMeters / (d - m * stepMeters) * (latB - S.drone.latitude)
                  altitude := adjustAltitudeR S.drone.altitude targetAlt
                    S.drone.vertical_speed S.drone.move_frequency
                  vertical_speed := S.drone.vertical_speed
                  move_frequency := S.drone.move_frequency }
              trail := TrailR.addTrailPoint S.trail S.drone.longitude S.drone.latitude
                (some S.drone.altitude) 0
              active := true
              completions := S.completions } := by
          unfold moveTick
          rw [hact, if_pos rfl, hdist]
          rw [if_neg (ne_of_gt hdm), if_neg (by rw [not_le]; linarith)]
        rw [htick]
        refine ⟨?_, ?_, ?_, ?_, ?_, ?_⟩
        · show S.drone.longitude +
              stepMeters / (d - m * stepMeters) * (lonB - S.drone.longitude)
            = lonA + (((m + 1 : ℕ) : ℝ) * stepMeters / d) * (lonB - lonA)
          rw [ihlon]
          push_cast
          field_simp
          ring
        · show S.drone.latitude +
              stepMeters / (d - m * stepMeters) * (latB - S.drone.latitude)
            = latA + (((m + 1 : ℕ) : ℝ) * stepMeters / d) * (latB - latA)
          rw [ihlat]
          push_cast
          field_simp
          ring
        · show (true : Bool) = decide (m + 1 < n)
          exact (decide_eq_true hlt).symm
        · show S.completions = if m + 1 < n then 0 else 1
          rw [ihcomp, if_pos hmn, if_pos hlt]
        · intro seg hseg
          rcases TrailR.mem_pathSegments_addTrailPoint hseg with hold | hnew
          · obtain ⟨i, hi, h1, h2⟩ := ihseg seg hold
            exact ⟨i, by omega, h1, h2⟩
          · refine ⟨m, by omega, ?_, ?_⟩
            · rw [hnew.1, ihlon]
            · rw [hnew.2, ihlat]
        · intro payload hp seg hseg2
          rcases TrailR.mem_signals_addTrailPoint hp with hold | hnew
          · obtain ⟨i, hi, h1, h2⟩ := ihsig payload hold seg hseg2
            exact ⟨i, by omega, h1, h2⟩
          · rw [hnew] at hseg2
            rcases TrailR.mem_pathSegments_addTrailPoint hseg2 with hold2 | hnew2
            · obtain ⟨i, hi, h1, h2⟩ := ihseg seg hold2
              exact ⟨i, by omega, h1, h2⟩
            · refine ⟨m, by omega, ?_, ?_⟩
              · rw [hnew2.1, ihlon]
              · rw [hnew2.2, ihlat]
      · have heq : m + 1 = n := le_antisymm hm1 hge
        have hstep2 : d ≤ ((m : ℝ) + 1) * stepMeters := by
          have hle : ⌈d / stepMeters⌉₊ ≤ m + 1 := by rw [← hn]; exact hge
          have hx : d / stepMeters ≤ ((m + 1 : ℕ) : ℝ) := Nat.ceil_le.mp hle
          push_cast at hx
          exact (div_le_iff₀ hs).mp hx
        have htick : moveTick lonB latB targetAlt stepMeters S =
            { drone :=
                { longitude := S.drone.longitude +
                    stepMeters / (d - m * stepMeters) * (lonB - S.drone.longitude)
                  latitude := S.drone.latitude +
                    stepMeters / (d - m * stepMeters) * (latB - S.drone.latitude)
                  altitude := adjustAltitudeR S.drone.altitude targetAlt
                    S.drone.vertical_speed S.drone.move_frequency
                  vertical_speed := S.drone.vertical_speed
                  move_frequency := S.drone.move_frequency }
              trail := TrailR.addTrailPoint S.trail S.drone.longitude S.drone.latitude
                (some S.drone.altitude) 0
              active := false
              completions := S.completions + 1 } := by
          unfold moveTick
          rw [hact, if_pos rfl, hdist]
          rw [if_neg (ne_of_gt hdm), if_pos (by linarith)]
        rw [htick]
        refine ⟨?_, ?_, ?_, ?_, ?_, ?_⟩
        · show S.drone.longitude +
              stepMeters / (d - m * stepMeters) * (lonB - S.drone.longitude)
            = lonA + (((m + 1 : ℕ) : ℝ) * stepMeters / d) * (lonB - lonA)
          rw [ihlon]
          push_cast
          field_simp
          ring
        · show S.drone.latitude +
              stepMeters / (d - m * stepMeters) * (latB - S.drone.latitude)
            = latA + (((m + 1 : ℕ) : ℝ) * stepMeters / d) * (latB - latA)
          rw [ihlat]
          push_cast
          field_simp
          ring
        · show (false : Bool) = decide (m + 1 < n)
          exact (decide_eq_false (by omega)).symm
        · show S.completions + 1 = if m + 1 < n then 0 else 1
          rw [ihcomp, if_pos hmn, if_neg (by omega)]
        · intro seg hseg
          rcases TrailR.mem_pathSegments_addTrailPoint hseg with hold | hnew
          · obtain ⟨i, hi, h1, h2⟩ := ihseg seg hold
            exact ⟨i, by omega, h1, h2⟩
          · refine ⟨m, by omega, ?_, ?_⟩
            · rw [hnew.1, ihlon]
            · rw [hnew.2, ihlat]
        · intro payload hp seg hseg2
          rcases TrailR.mem_signals_addTrailPoint hp with hold | hnew
          · obtain ⟨i, hi, h1, h2⟩ := ihsig payload hold seg hseg2
            exact ⟨i, by omega, h1, h2⟩
          · rw [hnew] at hseg2
            rcases TrailR.mem_pathSegments_addTrailPoint hseg2 with hold2 | hnew2
            · obtain ⟨i, hi, h1, h2⟩ := ihseg seg hold2
              exact ⟨i, by omega, h1, h2⟩
            · refine ⟨m, by omega, ?_, ?_⟩
              · rw [hnew2.1, ihlon]
              · rw [hnew2.2, ihlat]

end Navigation

theorem getLast?_push_shift {cap : ℕ} (hcap : 1 ≤ cap) (l : List α) (a : α) :
    (if cap < (l ++ [a]).length then (l ++ [a]).tail else l ++ [a]).getLast? = some a := by
  split
  · cases l with
    | nil => simp at *; omega
    | cons h t =>
        rw [show ((h :: t) ++ [a]).tail = t ++ [a] from rfl]
        exact List.getLast?_concat _
  · exact List.getLast?_concat _

/-- The color rule exactly as the spec words it: velocity below 2 m/s is
green, below 8 yellow, below 15 orange, otherwise red. -/
def colorSpec (velocity : ℚ) : ℕ × ℕ × ℕ :=
  if velocity < 2 then (0, 255, 0)
  else if velocity < 8 then (255, 255, 0)
  else if velocity < 15 then (255, 165, 0)
  else (255, 0, 0)

/-- C3 (amended): `clear()` empties the stored segment sequence, is
idempotent and cannot throw, but it does NOT signal the render sync: the
`updateLayer` guard `pathSegments.length > 0` skips the `setProps` call on
an empty store, so no empty payload is emitted and the layer keeps its
previous geometry. -/
theorem clear_empties_idempotent_without_signal (s : DroneTrail.State) :
    (DroneTrail.clear s).pathSegments = [] ∧
    (DroneTrail.clear s).signals = s.signals ∧
    (DroneTrail.clear s).layerData = s.layerData ∧
    DroneTrail.clear (DroneTrail.clear s) = DroneTrail.clear s := by
  have hc : DroneTrail.clear s = { s with pathSegments := [] } := by
    unfold DroneTrail.clear DroneTrail.updateLayer
    rw [if_neg (by simp)]
  rw [hc]
  refine ⟨rfl, rfl, rfl, ?_⟩
  unfold DroneTrail.clear DroneTrail.updateLayer
  rw [if_neg (by simp)]

/-- C3 counterexample: on a trail holding one segment, `clear()` empties the
store but emits no render notification at all (the signal log is unchanged)
and the layer's last-received data still holds the old segment, refuting
"signals the render sync with an empty geometry payload". -/
theorem clear_missing_empty_signal_counterexample :
    (DroneTrail.clear
        ⟨[DroneTrail.mkSegment ⟨0, 0, 0⟩ ⟨1, 0, 0⟩ 0],
         [DroneTrail.mkSegment ⟨0, 0, 0⟩ ⟨1, 0, 0⟩ 0],
         [[DroneTrail.mkSegment ⟨0, 0, 0⟩ ⟨1, 0, 0⟩ 0]]⟩).pathSegments = [] ∧
    (DroneTrail.clear
        ⟨[DroneTrail.mkSegment ⟨0, 0, 0⟩ ⟨1, 0, 0⟩ 0],
         [DroneTrail.mkSegment ⟨0, 0, 0⟩ ⟨1, 0, 0⟩ 0],
         [[DroneTrail.mkSegment ⟨0, 0, 0⟩ ⟨1, 0, 0⟩ 0]]⟩).signals =
      [[DroneTrail.mkSegment ⟨0, 0, 0⟩ ⟨1, 0, 0⟩ 0]] ∧
    (DroneTrail.clear
        ⟨[DroneTrail.mkSegment ⟨0, 0, 0⟩ ⟨1, 0, 0⟩ 0],
         [DroneTrail.mkSegment ⟨0, 0, 0⟩ ⟨1, 0, 0⟩ 0],
         [[DroneTrail.mkSegment ⟨0, 0, 0⟩ ⟨1, 0, 0⟩ 0]]⟩).layerData ≠ [] := by
  have hc : ∀ s : DroneTrail.State, DroneTrail.clear s = { s with pathSegments := [] } := by
    intro s
    unfold DroneTrail.clear DroneTrail.updateLayer
    rw [if_neg (by simp)]
  rw [hc]
  exact ⟨rfl, rfl, List.cons_ne_nil _ _⟩

/-- C4 (amended): the significance filter is a silent no-op below the
threshold, but the two trail variants treat the boundary differently: the
point-mode store is a no-op whenever the degree distance is ≤ 0.000009
(acceptance is strict `>`), while the segment store skips only for
distance strictly < 0.000009 — a segment at exactly the threshold distance
is stored. -/
theorem significance_filter_boundary :
    (∀ (s : PointTrail.State) (lastPoint : TrailPoint) (lon lat : ℚ) (alt : Option ℚ),
      s.trailPoints.getLast? = some lastPoint →
      calculateDistance (lastPoint.lon, lastPoint.lat) (lon, lat) ≤ ((minDist : ℚ) : ℝ) →
      PointTrail.addTrailPoint s lon lat alt = s) ∧
    (∀ (s : DroneTrail.State) (fromPosition toPosition : Pos3) (velocity : ℚ),
      DroneTrail.posDistance fromPosition toPosition < ((minDist : ℚ) : ℝ) →
      DroneTrail.addPathSegment s fromPosition toPosition velocity = s) ∧
    (∀ (s : DroneTrail.State) (fromPosition toPosition : Pos3) (velocity : ℚ),
      DroneTrail.posDistance fromPosition toPosition = ((minDist : ℚ) : ℝ) →
      (DroneTrail.addPathSegment s fromPosition toPosition velocity).pathSegments.getLast?
        = some (DroneTrail.mkSegment fromPosition toPosition velocity)) := by
  refine ⟨?_, ?_, ?_⟩
  · intro s lastPoint lon lat alt hlast hdist
    refine PointTrail.addTrailPoint_of_not_accepts alt ?_
    unfold PointTrail.accepts
    rw [hlast, decide_eq_false_iff_not]
    rw [not_lt]
    have hx := (calculateDistance_gt_iff (lastPoint.lon, lastPoint.lat) (lon, lat)
      (show (0 : ℚ) ≤ minDist by norm_num [minDist])).not
    rw [not_lt, not_lt] at hx
    exact hx.mp hdist
  · intro s fromPosition toPosition velocity hdist
    refine DroneTrail.addPathSegment_of_lt ?_
    exact (calculateDistance_lt_iff (fromPosition.lon, fromPosition.lat)
      (toPosition.lon, toPosition.lat) (show (0 : ℚ) < minDist by norm_num [minDist])).mp hdist
  · intro s fromPosition toPosition velocity hdist
    have hnot : ¬ sqDist (fromPosition.lon, fromPosition.lat)
        (toPosition.lon, toPosition.lat) < minDist ^ 2 := by
      intro hc
      have := (calculateDistance_lt_iff (fromPosition.lon, fromPosition.lat)
        (toPosition.lon, toPosition.lat) (show (0 : ℚ) < minDist by norm_num [minDist])).mpr hc
      rw [DroneTrail.posDistance] at hdist
      rw [hdist] at this
      exact lt_irrefl _ this
    unfold DroneTrail.addPathSegment
    rw [if_neg hnot, DroneTrail.segUpdateLayer_pathSegments]
    exact getLast?_push_shift (by omega) _ _

/-- C4 counterexample: a segment whose endpoints are exactly 0.000009
degrees apart (the threshold itself) is NOT a no-op — `addPathSegment`
stores it and notifies the layer — because the skip test is strict `<`. -/
theorem threshold_segment_stored_counterexample :
    DroneTrail.posDistance ⟨0, 0, 0⟩ ⟨9 / 1000000, 0, 0⟩ = ((minDist : ℚ) : ℝ) ∧
    (DroneTrail.addPathSegment DroneTrail.initState ⟨0, 0, 0⟩ ⟨9 / 1000000, 0, 0⟩
        0).pathSegments = [DroneTrail.mkSegment ⟨0, 0, 0⟩ ⟨9 / 1000000, 0, 0⟩ 0] ∧
    (DroneTrail.addPathSegment DroneTrail.initState ⟨0, 0, 0⟩ ⟨9 / 1000000, 0, 0⟩
        0).signals = [[DroneTrail.mkSegment ⟨0, 0, 0⟩ ⟨9 / 1000000, 0, 0⟩ 0]] := by
  have hsq : sqDist (((⟨0, 0, 0⟩ : Pos3)).lon, ((⟨0, 0, 0⟩ : Pos3)).lat)
      (((⟨9 / 1000000, 0, 0⟩ : Pos3)).lon, ((⟨9 / 1000000, 0, 0⟩ : Pos3)).lat) =
        minDist ^ 2 := by
    norm_num [sqDist, minDist]
  refine ⟨?_, ?_, ?_⟩
  · rw [DroneTrail.posDistance, calculateDistance_eq_sqrt_sqDist, hsq]
    push_cast
    exact Real.sqrt_sq (by norm_num [minDist])
  · unfold DroneTrail.addPathSegment
    rw [if_neg (by rw [hsq]; exact lt_irrefl _), DroneTrail.segUpdateLayer_pathSegments]
    rfl
  · unfold DroneTrail.addPathSegment
    rw [if_neg (by rw [hsq]; exact lt_irrefl _)]
    unfold DroneTrail.updateLayer
    rw [if_pos (by rw [show DroneTrail.initState.pathSegments = [] from rfl]; simp)]
    rfl

/-- C6 (confirmed): the very first point-mode append is always stored
regardless of distance, and after any sequence of appends — including
through FIFO eviction — consecutive stored points are farther apart than
the 0.000009-degree threshold. -/
theorem dedup_first_point_and_chain :
    (∀ (s : PointTrail.State) (lon lat : ℚ) (alt : Option ℚ), s.trailPoints = [] →
      (PointTrail.addTrailPoint s lon lat alt).trailPoints =
        [(⟨lon, lat, alt⟩ : TrailPoint)]) ∧
    (∀ (s : PointTrail.State) (lon lat : ℚ) (alt : Option ℚ),
      s.trailPoints.Chain' PointTrail.farApart →
      (PointTrail.addTrailPoint s lon lat alt).trailPoints.Chain' PointTrail.farApart) ∧
    (∀ cs : List PointTrail.Call,
      ((PointTrail.run PointTrail.initState cs).trailPoints).Chain'
        (fun p q => ((minDist : ℚ) : ℝ) < calculateDistance (p.lon, p.lat) (q.lon, q.lat))) := by
  refine ⟨?_, ?_, ?_⟩
  · intro s lon lat alt h
    have hl : s.trailPoints.getLast? = none := by rw [h]; rfl
    unfold PointTrail.addTrailPoint
    simp only [hl]
  · intro s lon lat alt h
    exact PointTrail.chain'_farApart_addTrailPoint s lon lat alt h
  · intro cs
    have h := PointTrail.chain'_farApart_run cs PointTrail.initState List.chain'_nil
    refine h.imp ?_
    intro a b hab
    exact (calculateDistance_gt_iff (a.lon, a.lat) (b.lon, b.lat)
      (by norm_num [minDist])).mpr hab

/-- C7 (confirmed): every accepted segment's color is the fixed piecewise
function of velocity the spec states (boundaries 2, 8, 15 falling into the
upper bracket) and its width is `min(3 * max(1, destinationAltitude/100), 8)`. -/
theorem segment_color_width_derivation :
    (∀ velocity : ℚ, DroneTrail.getColorByVelocity velocity = colorSpec velocity) ∧
    (DroneTrail.getColorByVelocity 1 = (0, 255, 0) ∧
      DroneTrail.getColorByVelocity 5 = (255, 255, 0) ∧
      DroneTrail.getColorByVelocity 10 = (255, 165, 0) ∧
      DroneTrail.getColorByVelocity 20 = (255, 0, 0)) ∧
    (DroneTrail.getColorByVelocity 2 = (255, 255, 0) ∧
      DroneTrail.getColorByVelocity 8 = (255, 165, 0) ∧
      DroneTrail.getColorByVelocity 15 = (255, 0, 0)) ∧
    (∀ altitude : ℚ,
      DroneTrail.getWidthByAltitude altitude = min (3 * max 1 (altitude / 100)) 8) ∧
    (∀ (s : DroneTrail.State) (fromPosition toPosition : Pos3) (velocity : ℚ),
      ¬ DroneTrail.posDistance fromPosition toPosition < ((minDist : ℚ) : ℝ) →
      (DroneTrail.addPathSegment s fromPosition toPosition velocity).pathSegments.getLast?
          = some (DroneTrail.mkSegment fromPosition toPosition velocity) ∧
      (DroneTrail.mkSegment fromPosition toPosition velocity).color =
        DroneTrail.getColorByVelocity velocity ∧
      (DroneTrail.mkSegment fromPosition toPosition velocity).width =
        DroneTrail.getWidthByAltitude toPosition.alt) := by
  refine ⟨fun v => rfl, ?_, ?_, fun altitude => rfl, ?_⟩
  · refine ⟨?_, ?_, ?_, ?_⟩ <;> norm_num [DroneTrail.getColorByVelocity]
  · refine ⟨?_, ?_, ?_⟩ <;> norm_num [DroneTrail.getColorByVelocity]
  · intro s fromPosition toPosition velocity h
    have hnot : ¬ sqDist (fromPosition.lon, fromPosition.lat)
        (toPosition.lon, toPosition.lat) < minDist ^ 2 := by
      intro hc
      exact h ((calculateDistance_lt_iff (fromPosition.lon, fromPosition.lat)
        (toPosition.lon, toPosition.lat) (by norm_num [minDist])).mpr hc)
    refine ⟨?_, rfl, rfl⟩
    unfold DroneTrail.addPathSegment
    rw [if_neg hnot, DroneTrail.segUpdateLayer_pathSegments]
    exact getLast?_push_shift (by omega) _ _

/-- C10 (confirmed): over any sequence of `addTrailPoint` calls on one
drone's segment trail, the first stored segment starts at the fixed
`-0.00001`-degree offset of its destination, and after every call —
rejections and FIFO eviction included — each stored segment starts exactly
where its predecessor ends: the stored chain is a connected polyline. -/
theorem segment_chain_connected :
    (∀ (s : DroneTrail.State) (lon lat : ℚ) (alt : Option ℚ) (velocity : ℚ),
      s.pathSegments = [] →
      (DroneTrail.addTrailPoint s lon lat alt velocity).pathSegments =
        [DroneTrail.mkSegment ⟨lon - 1 / 100000, lat - 1 / 100000, alt.getD 0⟩
          ⟨lon, lat, alt.getD 0⟩ velocity]) ∧
    (∀ cs : List DroneTrail.Call,
      ((DroneTrail.run DroneTrail.initState cs).pathSegments).Chain' DroneTrail.linked) := by
  constructor
  · intro s lon lat alt velocity h
    exact DroneTrail.pathSegments_addTrailPoint_of_empty h lon lat alt velocity
  · intro cs
    exact DroneTrail.chain'_linked_run cs DroneTrail.initState (by simp [DroneTrail.initState])
      List.chain'_nil

/-- C5 (confirmed): the point store never exceeds 200 entries and the
segment store never exceeds 300; once at least `cap` appends have been
accepted, the store holds exactly the most recent `cap` accepted entries
in insertion order (FIFO eviction of the oldest). -/
theorem bounded_memory_fifo (cs : List PointTrail.Call) (ds : List DroneTrail.Call)
    (hc : 200 ≤ (PointTrail.acceptedPoints PointTrail.initState cs).length)
    (hd : 300 ≤ (DroneTrail.acceptedSegs DroneTrail.initState ds).length) :
    (∀ es : List PointTrail.Call,
      (PointTrail.run PointTrail.initState es).trailPoints.length ≤ 200) ∧
    (∀ fs : List DroneTrail.Call,
      (DroneTrail.run DroneTrail.initState fs).pathSegments.length ≤ 300) ∧
    (PointTrail.run PointTrail.initState cs).trailPoints =
      lastN 200 (PointTrail.acceptedPoints PointTrail.initState cs) ∧
    (PointTrail.run PointTrail.initState cs).trailPoints.length = 200 ∧
    (DroneTrail.run DroneTrail.initState ds).pathSegments =
      lastN 300 (DroneTrail.acceptedSegs DroneTrail.initState ds) ∧
    (DroneTrail.run DroneTrail.initState ds).pathSegments.length = 300 := by
  have hp := PointTrail.run_trailPoints_eq_lastN cs PointTrail.initState
    (by norm_num [PointTrail.initState])
  rw [show PointTrail.initState.trailPoints = [] from rfl, List.nil_append] at hp
  have hq2 := DroneTrail.run_pathSegments_eq_lastN ds DroneTrail.initState
    (by norm_num [DroneTrail.initState])
  rw [show DroneTrail.initState.pathSegments = [] from rfl, List.nil_append] at hq2
  refine ⟨?_, ?_, hp, ?_, hq2, ?_⟩
  · intro es
    have h := PointTrail.run_trailPoints_eq_lastN es PointTrail.initState
      (by norm_num [PointTrail.initState])
    rw [h, lastN_length]
    omega
  · intro fs
    have h := DroneTrail.run_pathSegments_eq_lastN fs DroneTrail.initState
      (by norm_num [DroneTrail.initState])
    rw [h, lastN_length]
    omega
  · rw [hp, lastN_length]
    omega
  · rw [hq2, lastN_length]
    omega

/-- C5 witness: 200 one-degree-spaced point appends and 300 spaced segment
appends are all accepted and fill each store exactly to its cap. -/
theorem bounded_memory_fifo_witness :
    (PointTrail.run PointTrail.initState (PointTrail.spacedCalls 200)).trailPoints.length
        = 200 ∧
    (DroneTrail.run DroneTrail.initState (DroneTrail.spacedSegCalls 300)).pathSegments.length
        = 300 := by
  have h := bounded_memory_fifo (PointTrail.spacedCalls 200) (DroneTrail.spacedSegCalls 300)
    (le_of_eq (PointTrail.length_acceptedPoints_spacedCalls 200).symm)
    (le_of_eq (DroneTrail.length_acceptedSegs_spacedSegCalls 300).symm)
  exact ⟨h.2.2.2.1, h.2.2.2.2.2⟩

/-- C8 (confirmed): for every state reachable by any sequence of
`moveDroneToward` calls, ticks, arrivals and `stopMovement` calls, at most
one movement interval is scheduled, any scheduled interval is the one
`move_interval` holds, and a further `moveDroneToward` cancels it before
scheduling exactly one fresh loop. -/
theorem single_active_movement_loop (ops : List Sched.Op) :
    (Sched.runOps Sched.initState ops).active.length ≤ 1 ∧
    (∀ i ∈ (Sched.runOps Sched.initState ops).active,
      (Sched.runOps Sched.initState ops).move_interval = some i) ∧
    (Sched.moveDroneToward (Sched.runOps Sched.initState ops)).active =
      [(Sched.runOps Sched.initState ops).nextId] := by
  have hi := Sched.inv_runOps ops Sched.initState Sched.inv_initState
  exact ⟨hi.1, hi.2, Sched.active_moveDroneToward hi⟩

/-- C2 (amended): the per-tick altitude rule moves by
`vertical_speed / move_frequency` toward the target while the gap exceeds
0.5 and otherwise snaps to the target; but in the spec's own scenario
(100 → 105 at 2 m/s, 1 Hz) the gap never drops below 1, so the snap never
fires: from the second tick on the altitude alternates 104, 106, 104, …
forever and never equals 105. -/
theorem altitude_glide_rule_and_oscillation :
    (∀ a t vs f : ℚ, |a - t| ≤ 1 / 2 → adjustAltitude a t vs f = t) ∧
    (∀ a t vs f : ℚ, 1 / 2 < |a - t| →
      adjustAltitude a t vs f = if a < t then a + vs / f else a - vs / f) ∧
    (∀ n : ℕ, 2 ≤ n → altSeq n = if Even n then 104 else 106) ∧
    (∀ n : ℕ, altSeq n ≠ 105) := by
  refine ⟨?_, ?_, altSeq_oscillates, ?_⟩
  · intro a t vs f h
    unfold adjustAltitude
    rw [if_neg (not_lt.mpr h)]
  · intro a t vs f h
    unfold adjustAltitude
    rw [if_pos h]
  · intro n
    rcases n with _ | _ | k
    · rw [altSeq_zero]
      norm_num
    · rw [show (1 : ℕ) = 0 + 1 from rfl, altSeq_succ, altSeq_zero, adjustAltitude_100]
      norm_num
    · have h := altSeq_oscillates (k + 2) (by omega)
      show altSeq (k + 2) ≠ 105
      rw [h]
      split <;> norm_num

/-- C2 counterexample: starting at altitude 100 with target 105, vertical
speed 2 and frequency 1 Hz, the altitude after 3 ticks is 106 — not the
claimed exact 105 — and it keeps oscillating: 104 after 4 ticks, 106 after
5. -/
theorem altitude_snap_counterexample :
    altSeq 3 = 106 ∧ altSeq 3 ≠ 105 ∧ altSeq 4 = 104 ∧ altSeq 5 = 106 := by
  have h1 : altSeq 1 = 102 := by
    rw [show (1 : ℕ) = 0 + 1 from rfl, altSeq_succ, altSeq_zero, adjustAltitude_100]
  have h2 : altSeq 2 = 104 := by
    rw [show (2 : ℕ) = 1 + 1 from rfl, altSeq_succ, h1, adjustAltitude_102]
  have h3 : altSeq 3 = 106 := by
    rw [show (3 : ℕ) = 2 + 1 from rfl, altSeq_succ, h2, adjustAltitude_104]
  have h4 : altSeq 4 = 104 := by
    rw [show (4 : ℕ) = 3 + 1 from rfl, altSeq_succ, h3, adjustAltitude_106]
  have h5 : altSeq 5 = 106 := by
    rw [show (5 : ℕ) = 4 + 1 from rfl, altSeq_succ, h4, adjustAltitude_104]
  exact ⟨h3, by rw [h3]; norm_num, h4, h5⟩

namespace Navigation

/-- Distinct interpolation indices give distinct planar positions along a
non-degenerate segment. -/
theorem interp_point_injective (lonA latA lonB latB stepMeters d : ℝ)
    (hq : (latB - latA) ^ 2 + (lonB - lonA) ^ 2 ≠ 0) (hs : 0 < stepMeters)
    (hd' : d ≠ 0) {i j : ℕ} (hij : i ≠ j)
    (h1 : lonA + ((i : ℝ) * stepMeters / d) * (lonB - lonA) =
      lonA + ((j : ℝ) * stepMeters / d) * (lonB - lonA))
    (h2 : latA + ((i : ℝ) * stepMeters / d) * (latB - latA) =
      latA + ((j : ℝ) * stepMeters / d) * (latB - latA)) : False := by
  have e1 : ((i : ℝ) * stepMeters / d) * (lonB - lonA) =
      ((j : ℝ) * stepMeters / d) * (lonB - lonA) := by linarith
  have e2 : ((i : ℝ) * stepMeters / d) * (latB - latA) =
      ((j : ℝ) * stepMeters / d) * (latB - latA) := by linarith
  have hne : (i : ℝ) * stepMeters / d ≠ (j : ℝ) * stepMeters / d := by
    intro he
    field_simp at he
    rcases he with he | he
    · exact hij (by exact_mod_cast he)
    · exact absurd he (ne_of_gt hs)
  have hlon0 : lonB - lonA = 0 := by
    by_contra hnz
    exact hne (mul_right_cancel₀ hnz e1)
  have hlat0 : latB - latA = 0 := by
    by_contra hnz
    exact hne (mul_right_cancel₀ hnz e2)
  apply hq
  rw [hlat0, hlon0]
  norm_num

end Navigation

/-- C1 (amended): a maneuver toward a target at positive planar distance
`d` meters with step `stepMeters` terminates after exactly
`n = ⌈d / stepMeters⌉` ticks (the loop is still scheduled at every earlier
tick) and `onComplete` fires exactly once; but the final committed
position is the interpolation point `A + (n·stepMeters/d)·(B − A)`, which
overshoots the target by `n·stepMeters − d` meters — there is no snap to
the target, so the final position equals the target only when `d` is an
exact multiple of `stepMeters`. -/
theorem moveDroneToward_terminates_and_overshoots
    (lonA latA lonB latB targetAlt alt0 vs fr stepMeters d : ℝ) (n m : ℕ)
    (hq : (latB - latA) ^ 2 + (lonB - lonA) ^ 2 ≠ 0)
    (hs : 0 < stepMeters)
    (hd : d = Navigation.totalDistance (latA, lonA) (latB, lonB))
    (hn : n = ⌈d / stepMeters⌉₊)
    (hm : n ≤ m) :
    (Navigation.moveRun lonB latB targetAlt stepMeters m
        (Navigation.initSim lonA latA alt0 vs fr)).completions = 1 ∧
    (Navigation.moveRun lonB latB targetAlt stepMeters m
        (Navigation.initSim lonA latA alt0 vs fr)).active = false ∧
    (Navigation.moveRun lonB latB targetAlt stepMeters m
        (Navigation.initSim lonA latA alt0 vs fr)).drone.longitude
        = lonA + (n * stepMeters / d) * (lonB - lonA) ∧
    (Navigation.moveRun lonB latB targetAlt stepMeters m
        (Navigation.initSim lonA latA alt0 vs fr)).drone.latitude
        = latA + (n * stepMeters / d) * (latB - latA) ∧
    (∀ k : ℕ, k < n →
      (Navigation.moveRun lonB latB targetAlt stepMeters k
        (Navigation.initSim lonA latA alt0 vs fr)).active = true ∧
      (Navigation.moveRun lonB latB targetAlt stepMeters k
        (Navigation.initSim lonA latA alt0 vs fr)).completions = 0) ∧
    Navigation.totalDistance
        ((Navigation.moveRun lonB latB targetAlt stepMeters m
            (Navigation.initSim lonA latA alt0 vs fr)).drone.latitude,
         (Navigation.moveRun lonB latB targetAlt stepMeters m
            (Navigation.initSim lonA latA alt0 vs fr)).drone.longitude)
        (latB, lonB) = n * stepMeters - d := by
  have hq' : 0 < (latB - latA) ^ 2 + (lonB - lonA) ^ 2 :=
    lt_of_le_of_ne (by positivity) (Ne.symm hq)
  have hsq : 0 < Real.sqrt ((latB - latA) ^ 2 + (lonB - lonA) ^ 2) := Real.sqrt_pos.mpr hq'
  have hd0 : 0 < d := by
    rw [hd, Navigation.totalDistance_def]
    positivity
  obtain ⟨hlon, hlat, hact, hcomp, _, _⟩ := Navigation.moveRun_invariant lonA latA lonB latB
    targetAlt alt0 vs fr stepMeters d n hq hs hd hn n (le_refl n)
  have hactn : (Navigation.moveRun lonB latB targetAlt stepMeters n
      (Navigation.initSim lonA latA alt0 vs fr)).active = false := by
    rw [hact]
    exact decide_eq_false (lt_irrefl n)
  have hfrozen : Navigation.moveRun lonB latB targetAlt stepMeters m
      (Navigation.initSim lonA latA alt0 vs fr) =
      Navigation.moveRun lonB latB targetAlt stepMeters n
        (Navigation.initSim lonA latA alt0 vs fr) := by
    have hsplit : m = (m - n) + n := by omega
    rw [hsplit]
    unfold Navigation.moveRun
    rw [Function.iterate_add_apply]
    exact Navigation.moveRun_of_inactive hactn (m - n)
  rw [hfrozen]
  refine ⟨?_, hactn, hlon, hlat, ?_, ?_⟩
  · rw [hcomp, if_neg (lt_irrefl n)]
  · intro k hk
    obtain ⟨_, _, hactk, hcompk, _, _⟩ := Navigation.moveRun_invariant lonA latA lonB latB
      targetAlt alt0 vs fr stepMeters d n hq hs hd hn k (le_of_lt hk)
    exact ⟨by rw [hactk]; exact decide_eq_true hk, by rw [hcompk, if_pos hk]⟩
  · rw [hlat, hlon, Navigation.totalDistance_lerp, ← hd]
    have hnd : d ≤ (n : ℝ) * stepMeters := by
      have hx : d / stepMeters ≤ (n : ℝ) := by
        rw [hn]
        exact Nat.le_ceil _
      exact (div_le_iff₀ hs).mp hx
    have htn : 1 ≤ (n : ℝ) * stepMeters / d := by
      rw [le_div_iff₀ hd0]
      linarith
    rw [abs_of_nonpos (by linarith)]
    field_simp

/-- C1 witness: a concrete maneuver from the origin toward a target 3
meters east with 2-meter steps (`d = 3`, `n = 2`): after 2 ticks the
callback has fired exactly once. -/
theorem moveDroneToward_terminates_and_overshoots_witness :
    (Navigation.moveRun (3 / 111000) 0 100 2 2
        (Navigation.initSim 0 0 100 2 1)).completions = 1 :=
  (moveDroneToward_terminates_and_overshoots 0 0 (3 / 111000) 0 100 100 2 1 2 3 2 2
    (by norm_num) (by norm_num)
    (by
      rw [Navigation.totalDistance_def]
      rw [show ((0 : ℝ) - 0) ^ 2 + ((3 : ℝ) / 111000 - 0) ^ 2 = (3 / 111000) ^ 2 by ring]
      rw [Real.sqrt_sq (by norm_num)]
      norm_num)
    (by
      symm
      rw [Nat.ceil_eq_iff (by norm_num)]
      constructor <;> norm_num)
    (le_refl 2)).1

/-- C1 counterexample: for a target at exactly 3 meters with 2-meter steps,
the loop does fire `onComplete` once, but the final committed longitude is
`4/111000` degrees — a full meter past the target's `3/111000` — refuting
"final position equals the target within floating-point tolerance" and the
claimed snap-to-target. -/
theorem moveDroneToward_overshoot_counterexample :
    (Navigation.moveRun (3 / 111000) 0 100 2 2
        (Navigation.initSim 0 0 100 2 1)).drone.longitude = 4 / 111000 ∧
    (4 : ℝ) / 111000 ≠ 3 / 111000 ∧
    |(Navigation.moveRun (3 / 111000) 0 100 2 2
        (Navigation.initSim 0 0 100 2 1)).drone.longitude - 3 / 111000| = 1 / 111000 ∧
    (Navigation.moveRun (3 / 111000) 0 100 2 2
        (Navigation.initSim 0 0 100 2 1)).completions = 1 := by
  obtain ⟨hlon, hlat, hact, hcomp, _, _⟩ := Navigation.moveRun_invariant 0 0 (3 / 111000) 0
    100 100 2 1 2 3 2
    (by norm_num) (by norm_num)
    (by
      rw [Navigation.totalDistance_def]
      rw [show ((0 : ℝ) - 0) ^ 2 + ((3 : ℝ) / 111000 - 0) ^ 2 = (3 / 111000) ^ 2 by ring]
      rw [Real.sqrt_sq (by norm_num)]
      norm_num)
    (by
      symm
      rw [Nat.ceil_eq_iff (by norm_num)]
      constructor <;> norm_num)
    2 (le_refl 2)
  have hlon4 : (Navigation.moveRun (3 / 111000) 0 100 2 2
      (Navigation.initSim 0 0 100 2 1)).drone.longitude = 4 / 111000 := by
    rw [hlon]
    norm_num
  refine ⟨hlon4, by norm_num, ?_, ?_⟩
  · rw [hlon4]
    rw [abs_of_nonneg (by norm_num)]
    norm_num
  · rw [hcomp]
    norm_num

/-- C9 (confirmed): on every tick the position handed to the trail is the
vehicle's pre-step position, so after any number of ticks every destination
recorded in the trail (and every destination inside any render payload ever
signalled) is the interpolation point of a strictly earlier tick — in
particular it differs from the currently committed position, and the trail
never contains a point at or ahead of the vehicle. -/
theorem trail_records_only_past_positions
    (lonA latA lonB latB targetAlt alt0 vs fr stepMeters d : ℝ) (n : ℕ)
    (hq : (latB - latA) ^ 2 + (lonB - lonA) ^ 2 ≠ 0)
    (hs : 0 < stepMeters)
    (hd : d = Navigation.totalDistance (latA, lonA) (latB, lonB))
    (hn : n = ⌈d / stepMeters⌉₊) :
    ∀ m : ℕ,
      (∀ seg ∈ (Navigation.moveRun lonB latB targetAlt stepMeters m
          (Navigation.initSim lonA latA alt0 vs fr)).trail.pathSegments,
        ∃ i : ℕ, i < min m n ∧
          seg.dest.lon = lonA + (i * stepMeters / d) * (lonB - lonA) ∧
          seg.dest.lat = latA + (i * stepMeters / d) * (latB - latA) ∧
          ¬ (seg.dest.lon = (Navigation.moveRun lonB latB targetAlt stepMeters m
                (Navigation.initSim lonA latA alt0 vs fr)).drone.longitude ∧
             seg.dest.lat = (Navigation.moveRun lonB latB targetAlt stepMeters m
                (Navigation.initSim lonA latA alt0 vs fr)).drone.latitude)) ∧
      (∀ payload ∈ (Navigation.moveRun lonB latB targetAlt stepMeters m
          (Navigation.initSim lonA latA alt0 vs fr)).trail.signals,
        ∀ seg ∈ payload,
          ∃ i : ℕ, i < min m n ∧
            seg.dest.lon = lonA + (i * stepMeters / d) * (lonB - lonA) ∧
            seg.dest.lat = latA + (i * stepMeters / d) * (latB - latA)) := by
  have hq' : 0 < (latB - latA) ^ 2 + (lonB - lonA) ^ 2 :=
    lt_of_le_of_ne (by positivity) (Ne.symm hq)
  have hsq : 0 < Real.sqrt ((latB - latA) ^ 2 + (lonB - lonA) ^ 2) := Real.sqrt_pos.mpr hq'
  have hd0 : 0 < d := by
    rw [hd, Navigation.totalDistance_def]
    positivity
  intro m
  rcases le_or_lt m n with hmn | hnm
  · obtain ⟨hlon, hlat, _, _, hseg, hsig⟩ := Navigation.moveRun_invariant lonA latA lonB latB
      targetAlt alt0 vs fr stepMeters d n hq hs hd hn m hmn
    have hminn : min m n = m := Nat.min_eq_left hmn
    rw [hminn]
    constructor
    · intro seg hsg
      obtain ⟨i, hi, h1, h2⟩ := hseg seg hsg
      refine ⟨i, hi, h1, h2, ?_⟩
      rintro ⟨hc1, hc2⟩
      rw [h1, hlon] at hc1
      rw [h2, hlat] at hc2
      exact Navigation.interp_point_injective lonA latA lonB latB stepMeters d hq hs
        (ne_of_gt hd0) (by omega) hc1 hc2
    · intro payload hp seg hsg
      exact hsig payload hp seg hsg
  · obtain ⟨hlon, hlat, hact, _, hseg, hsig⟩ := Navigation.moveRun_invariant lonA latA lonB
      latB targetAlt alt0 vs fr stepMeters d n hq hs hd hn n (le_refl n)
    have hactn : (Navigation.moveRun lonB latB targetAlt stepMeters n
        (Navigation.initSim lonA latA alt0 vs fr)).active = false := by
      rw [hact]
      exact decide_eq_false (lt_irrefl n)
    have hfrozen : Navigation.moveRun lonB latB targetAlt stepMeters m
        (Navigation.initSim lonA latA alt0 vs fr) =
        Navigation.moveRun lonB latB targetAlt stepMeters n
          (Navigation.initSim lonA latA alt0 vs fr) := by
      have hsplit : m = (m - n) + n := by omega
      rw [hsplit]
      unfold Navigation.moveRun
      rw [Function.iterate_add_apply]
      exact Navigation.moveRun_of_inactive hactn (m - n)
    have hminn : min m n = n := Nat.min_eq_right (le_of_lt hnm)
    rw [hfrozen, hminn]
    constructor
    · intro seg hsg
      obtain ⟨i, hi, h1, h2⟩ := hseg seg hsg
      refine ⟨i, hi, h1, h2, ?_⟩
      rintro ⟨hc1, hc2⟩
      rw [h1, hlon] at hc1
      rw [h2, hlat] at hc2
      exact Navigation.interp_point_injective lonA latA lonB latB stepMeters d hq hs
        (ne_of_gt hd0) (by omega) hc1 hc2
    · intro payload hp seg hsg
      exact hsig payload hp seg hsg

/-- C9 witness: the concrete 3-meter maneuver with 2-meter steps after 2
ticks — every recorded destination is a strictly earlier tick position and
differs from the committed position. -/
theorem trail_records_only_past_positions_witness :
    (∀ seg ∈ (Navigation.moveRun (3 / 111000) 0 100 2 2
        (Navigation.initSim 0 0 100 2 1)).trail.pathSegments,
      ∃ i : ℕ, i < min 2 2 ∧
        seg.dest.lon = 0 + ((i : ℝ) * 2 / 3) * (3 / 111000 - 0) ∧
        seg.dest.lat = 0 + ((i : ℝ) * 2 / 3) * ((0 : ℝ) - 0) ∧
        ¬ (seg.dest.lon = (Navigation.moveRun (3 / 111000) 0 100 2 2
              (Navigation.initSim 0 0 100 2 1)).drone.longitude ∧
           seg.dest.lat = (Navigation.moveRun (3 / 111000) 0 100 2 2
              (Navigation.initSim 0 0 100 2 1)).drone.latitude)) ∧
    (∀ payload ∈ (Navigation.moveRun (3 / 111000) 0 100 2 2
        (Navigation.initSim 0 0 100 2 1)).trail.signals,
      ∀ seg ∈ payload,
        ∃ i : ℕ, i < min 2 2 ∧
          seg.dest.lon = 0 + ((i : ℝ) * 2 / 3) * (3 / 111000 - 0) ∧
          seg.dest.lat = 0 + ((i : ℝ) * 2 / 3) * ((0 : ℝ) - 0)) :=
  trail_records_only_past_positions 0 0 (3 / 111000) 0 100 100 2 1 2 3 2
    (by norm_num) (by norm_num)
    (by
      rw [Navigation.totalDistance_def]
      rw [show ((0 : ℝ) - 0) ^ 2 + ((3 : ℝ) / 111000 - 0) ^ 2 = (3 / 111000) ^ 2 by ring]
      rw [Real.sqrt_sq (by norm_num)]
      norm_num)
    (by
      symm
      rw [Nat.ceil_eq_iff (by norm_num)]
      constructor <;> norm_num)
    2
